import Mathlib

/-!
Verification development for the ant-biomodeling simulation
(antBiomodeling.py).  The Python source is shallowly embedded below:
float values are modelled as exact real numbers, Python ints as Nat/Int,
and the mutable objects (Ant, Ice, the shared micro-dot lists) as Lean
structures threaded through pure functions.  Statements that can raise a
Python exception (TypeError from calling the 4-argument moveToPoint with
2 arguments, IndexError from out-of-range list indexing) are modelled by
an explicit error outcome that preserves the side effects performed
before the raising statement, exactly as a dying Python thread would.
-/

set_option maxHeartbeats 1000000

open scoped Classical

noncomputable section

/-- Python math.hypot: the Euclidean norm sqrt(x^2 + y^2). -/
def hypot (x y : ℝ) : ℝ := Real.sqrt (x ^ 2 + y ^ 2)

/-- Python math.atan2 with the usual quadrant conventions (signed zeros of
floating point do not exist on the reals, so atan2 0 0 = 0). -/
def atan2 (y x : ℝ) : ℝ :=
  if 0 < x then Real.arctan (y / x)
  else if x < 0 then
    (if 0 ≤ y then Real.arctan (y / x) + Real.pi else Real.arctan (y / x) - Real.pi)
  else
    (if 0 < y then Real.pi / 2 else if y < 0 then -(Real.pi / 2) else 0)

/-- Python math.degrees: radians to degrees. -/
def degrees (x : ℝ) : ℝ := x * 180 / Real.pi

/-- Python's float modulo `a % b` for positive b: a - b * floor (a / b),
whose result lies in [0, b). -/
def pymod (a b : ℝ) : ℝ := a - b * (⌊a / b⌋ : ℤ)

/-- MicroDot: a coordinate point in 2D space that an ant visits. -/
structure MicroDot where
  xPosition : ℝ
  yPosition : ℝ

/-- The Lander sits at the origin (its `__init__` sets both coordinates
to 0); `Lander.xPosition` in the source. -/
def Lander.xPosition : ℝ := 0

/-- The Lander's fixed y-coordinate. -/
def Lander.yPosition : ℝ := 0

/-- The Ice resource: fixed position (defaults 20, -30), detection radius 1,
a remaining-quantity counter and a found flag (0 = no, 1 = yes). -/
structure Ice where
  xPosition : ℝ
  yPosition : ℝ
  radius : ℤ
  quantity : ℤ
  found : ℕ

/-- ICE_QUANTITY from the source: number of ice pieces, and also the
number of ants created by the main script. -/
def ICE_QUANTITY : ℕ := 9

/-- The global `Ice = Ice()` object at program start. -/
def Ice.init : Ice :=
  { xPosition := 20, yPosition := -30, radius := 1, quantity := (ICE_QUANTITY : ℤ), found := 0 }

/-- The mutable per-ant state of class Ant.  The mode flags are Python
ints taking values 0/1; `positionsLog` is this ant's entry of the shared
`positions` dictionary (every append to it happens under the global lock
in the source; the lock protects nothing else). -/
@[ext]
structure Ant where
  xPosition : ℝ
  yPosition : ℝ
  id : ℕ
  direction : ℝ
  distanceTravelled : ℕ
  pathHistory : List MicroDot
  returnPath : List MicroDot
  huntingForIceOffPathMode : ℕ
  onGoalPathToIceMode : ℕ
  discoveredIceMode : ℕ
  obtainingIceMode : ℕ
  goingHomeWithIceMode : ℕ
  goingHomeWithoutIceMode : ℕ
  needsToRechargeMode : ℕ
  isHomeMode : ℕ
  hasIceMode : ℕ
  iceFinder : ℕ
  positionsLog : List (ℝ × ℝ)

/-- Ant.__init__(xPosition, yPosition, id). -/
def mkAnt (xPosition yPosition : ℝ) (id : ℕ) : Ant :=
  { xPosition := xPosition, yPosition := yPosition, id := id, direction := 0,
    distanceTravelled := 0, pathHistory := [], returnPath := [],
    huntingForIceOffPathMode := 1, onGoalPathToIceMode := 0, discoveredIceMode := 0,
    obtainingIceMode := 0, goingHomeWithIceMode := 0, goingHomeWithoutIceMode := 0,
    needsToRechargeMode := 0, isHomeMode := 0, hasIceMode := 0, iceFinder := 0,
    positionsLog := [(xPosition, yPosition)] }

/-- Ant.setModes: overwrite the eight behavioural mode flags (hasIceMode
and iceFinder are not among them). -/
def Ant.setModes (a : Ant) (huntingForIceOffPathMode onGoalPathToIceMode discoveredIceMode
    obtainingIceMode goingHomeWithIceMode goingHomeWithoutIceMode needsToRechargeMode
    isHomeMode : ℕ) : Ant :=
  { a with
    huntingForIceOffPathMode := huntingForIceOffPathMode,
    onGoalPathToIceMode := onGoalPathToIceMode,
    discoveredIceMode := discoveredIceMode,
    obtainingIceMode := obtainingIceMode,
    goingHomeWithIceMode := goingHomeWithIceMode,
    goingHomeWithoutIceMode := goingHomeWithoutIceMode,
    needsToRechargeMode := needsToRechargeMode,
    isHomeMode := isHomeMode }

/-- Ant.move(lock, positions) with the value drawn by
`random.choice([-TURN_SIZE, 0, TURN_SIZE])` (TURN_SIZE = 5) passed in as
`turnChoice`.  Note that the source multiplies the step by the current
`distanceTravelled` counter and feeds the degree-valued direction straight
into math.cos/math.sin (which expect radians); both are kept verbatim. -/
def Ant.move (a : Ant) (turnChoice : ℝ) : Ant :=
  let direction := a.direction + turnChoice
  let direction := if direction > 360 then direction - 360 else direction
  let x := a.xPosition + (a.distanceTravelled : ℝ) * Real.cos direction
  let y := a.yPosition + (a.distanceTravelled : ℝ) * Real.sin direction
  { a with
    direction := direction, xPosition := x, yPosition := y,
    pathHistory := a.pathHistory ++ [⟨x, y⟩],
    positionsLog := a.positionsLog ++ [(x, y)],
    distanceTravelled := a.distanceTravelled + 1 }

/-- Ant.turnToPoint(xNext, yNext). -/
def Ant.turnToPoint (a : Ant) (xNext yNext : ℝ) : Ant :=
  let xCurrent := a.xPosition
  let yCurrent := a.yPosition
  let currentAngle := degrees (atan2 yCurrent xCurrent)
  let targetAngle := degrees (atan2 (yNext - yCurrent) (xNext - xCurrent))
  let angleDifference := pymod (targetAngle - currentAngle + 180) 360 - 180
  if angleDifference > 0 then { a with direction := a.direction + angleDifference }
  else { a with direction := a.direction - angleDifference }

/-- Ant.moveToPoint(xGoalDot, yGoalDot, lock, positions): turn towards the
target, jump the position exactly onto it, record one micro dot, and count
one unit of distance travelled regardless of the actual distance covered. -/
def Ant.moveToPoint (a : Ant) (xGoalDot yGoalDot : ℝ) : Ant :=
  let a := a.turnToPoint xGoalDot yGoalDot
  { a with
    xPosition := xGoalDot, yPosition := yGoalDot,
    pathHistory := a.pathHistory ++ [⟨xGoalDot, yGoalDot⟩],
    positionsLog := a.positionsLog ++ [(xGoalDot, yGoalDot)],
    distanceTravelled := a.distanceTravelled + 1 }

/-- Ant.dropGoalMicroDot: append the current position to the global
goalMicroDotsToIce deque, the global goalMicroDotsToHome list and the
ant's own path history (without touching distanceTravelled). -/
def Ant.dropGoalMicroDot (a : Ant) (goalMicroDotsToIce goalMicroDotsToHome : List MicroDot) :
    Ant × List MicroDot × List MicroDot :=
  ({ a with pathHistory := a.pathHistory ++ [⟨a.xPosition, a.yPosition⟩] },
   goalMicroDotsToIce ++ [⟨a.xPosition, a.yPosition⟩],
   goalMicroDotsToHome ++ [⟨a.xPosition, a.yPosition⟩])

/-- The two Python exceptions the simulation can raise: a TypeError from
the 2-argument calls to the 4-parameter Ant.moveToPoint, and an IndexError
from out-of-range list subscripts. -/
inductive PyError where
  | typeError : PyError
  | indexError : PyError
deriving DecidableEq

/-- Both `for dot in range(len(...))` walk loops of Ant.goingHome share this
shape: scan the dots in index order; on reaching a dot equal to the current
position move to the next dot, and from the last dot move to the Lander, set
isHomeMode and break.  `fuel` starts at the list length, matching the range
of the Python loop counter. -/
def walkLoop (l : List MicroDot) : ℕ → ℕ → Ant → Ant
  | 0, _, a => a
  | fuel + 1, dot, a =>
    if hd : dot < l.length then
      if a.xPosition = (l.get ⟨dot, hd⟩).xPosition ∧
          a.yPosition = (l.get ⟨dot, hd⟩).yPosition then
        if h2 : dot + 1 < l.length then
          walkLoop l fuel (dot + 1)
            (a.moveToPoint (l.get ⟨dot + 1, h2⟩).xPosition (l.get ⟨dot + 1, h2⟩).yPosition)
        else
          (a.moveToPoint Lander.xPosition Lander.yPosition).setModes 0 0 0 0 0 0 0 1
      else walkLoop l fuel (dot + 1) a
    else a

/-- Ant.goingHome.  Without ice it lazily builds returnPath as the reversed
path history plus the Lander, turns towards returnPath[1] (an IndexError
when the history was empty, after returnPath has already been assigned),
and walks returnPath; with ice it walks the module-global
goalMicroDotsToHome list.  Returns the ant state reached together with the
exception, if one was raised. -/
def Ant.goingHome (a : Ant) (goalMicroDotsToHome : List MicroDot) : Ant × Option PyError :=
  if a.hasIceMode = 0 then
    if a.returnPath = [] then
      let rp := a.pathHistory.reverse ++ [⟨Lander.xPosition, Lander.yPosition⟩]
      let a := { a with returnPath := rp }
      if h : 1 < rp.length then
        let a := a.turnToPoint (rp.get ⟨1, h⟩).xPosition (rp.get ⟨1, h⟩).yPosition
        (walkLoop rp rp.length 0 a, none)
      else (a, some .indexError)
    else (walkLoop a.returnPath a.returnPath.length 0 a, none)
  else
    (walkLoop goalMicroDotsToHome goalMicroDotsToHome.length 0 a, none)

/-- The shared mutable state of the simulation: the Ice object and the two
module-level micro-dot lists.  (The threading lock guards only the appends
to the positions dictionary, nothing here.) -/
structure Shared where
  ice : Ice
  goalMicroDotsToIce : List MicroDot
  goalMicroDotsToHome : List MicroDot

/-- How one pass of the inner `while Ant.distanceTravelled < 500` body ends:
normally, via the `break` after goingHome, or by an uncaught exception. -/
inductive PassFlow where
  | ok : PassFlow
  | broke : PassFlow
  | crash : PyError → PassFlow
deriving DecidableEq

/-- State reached by (a prefix of) one inner-loop pass: shared state, the
acting ant, the thread-local goalMicroDotsToHome list, and how it ended.
A crash preserves all side effects performed before the raising statement. -/
structure Res where
  sh : Shared
  a : Ant
  lh : List MicroDot
  flow : PassFlow

/-- Sequencing of the mode-guarded blocks inside one inner-loop pass:
a later block runs only if no earlier statement raised or broke. -/
def Res.andThen (r : Res) (f : Shared → Ant → List MicroDot → Res) : Res :=
  match r.flow with
  | .ok => f r.sh r.a r.lh
  | _ => r

/-- The goal-dot scan in the hunting block's else branch: for each goal dot,
if the ant is within distance 2 the source calls
`Ant.moveToPoint(dotX, dotY)` with two arguments -- a TypeError before any
state changes -- otherwise it re-assigns huntingForIceOffPathMode = 1. -/
def huntingScan (a : Ant) : List MicroDot → Ant × Option PyError
  | [] => (a, none)
  | d :: rest =>
    if hypot (a.xPosition - d.xPosition) (a.yPosition - d.yPosition) ≤ 2 then
      (a, some .typeError)
    else huntingScan { a with huntingForIceOffPathMode := 1 } rest

/-- The `if Ant.huntingForIceOffPathMode == 1` block: move randomly; if
within Ice.radius + 10 of the ice either claim first discovery (set
Ice.found, discoveredIceMode, iceFinder) or set obtainingIceMode; otherwise
scan the goal dots (which can only raise TypeError or leave hunting set). -/
def huntingBlock (turnChoice : ℝ) (sh : Shared) (a : Ant) (lh : List MicroDot) : Res :=
  if a.huntingForIceOffPathMode = 1 then
    let a := a.move turnChoice
    let distanceToIce := hypot (a.xPosition - sh.ice.xPosition) (a.yPosition - sh.ice.yPosition)
    if distanceToIce ≤ (sh.ice.radius : ℝ) + 10 then
      if sh.ice.found = 0 then
        let sh := { sh with ice := { sh.ice with found := 1 } }
        let a := a.setModes 0 0 1 0 0 0 0 0
        ⟨sh, { a with iceFinder := 1 }, lh, .ok⟩
      else ⟨sh, { a with obtainingIceMode := 1 }, lh, .ok⟩
    else
      match huntingScan a sh.goalMicroDotsToIce with
      | (a, none) => ⟨sh, a, lh, .ok⟩
      | (a, some e) => ⟨sh, a, lh, .crash e⟩
  else ⟨sh, a, lh, .ok⟩

/-- The `if Ant.discoveredIceMode == 1` block: turn back towards
pathHistory[-2] (IndexError when fewer than two dots), append the ice
location (20, -30) to the global goalMicroDotsToIce and to the
thread-local goalMicroDotsToHome, drop a goal micro dot at the current
position, and switch to goingHomeWithoutIceMode. -/
def discoveredBlock (sh : Shared) (a : Ant) (lh : List MicroDot) : Res :=
  if a.discoveredIceMode = 1 then
    if h : 2 ≤ a.pathHistory.length then
      let p := a.pathHistory.get ⟨a.pathHistory.length - 2, by omega⟩
      let a := a.turnToPoint p.xPosition p.yPosition
      let sh := { sh with goalMicroDotsToIce := sh.goalMicroDotsToIce ++ [MicroDot.mk 20 (-30)] }
      let lh := lh ++ [MicroDot.mk 20 (-30)]
      let r := a.dropGoalMicroDot sh.goalMicroDotsToIce sh.goalMicroDotsToHome
      let sh := { sh with goalMicroDotsToIce := r.2.1, goalMicroDotsToHome := r.2.2 }
      ⟨sh, r.1.setModes 0 0 0 0 0 1 0 0, lh, .ok⟩
    else ⟨sh, a, lh, .crash .indexError⟩
  else ⟨sh, a, lh, .ok⟩

/-- Loop body of the `if Ant.onGoalPathToIceMode == 1` block.  When the ant
is not exactly at the last goal dot, the source evaluates
`goalMicroDotsToIce[dot + 1]` (IndexError on the last index) and then calls
moveToPoint with two arguments (TypeError); otherwise it sets
obtainingIceMode and keeps iterating. -/
def onGoalPathLoop (gdots : List MicroDot) (hne : gdots ≠ []) : ℕ → ℕ → Ant → Ant × Option PyError
  | 0, _, a => (a, none)
  | fuel + 1, dot, a =>
    if a.xPosition ≠ (gdots.getLast hne).xPosition ∧
        a.yPosition ≠ (gdots.getLast hne).yPosition then
      if dot + 1 < gdots.length then (a, some .typeError) else (a, some .indexError)
    else onGoalPathLoop gdots hne fuel (dot + 1) (a.setModes 0 0 0 1 0 0 0 0)

/-- The `if Ant.onGoalPathToIceMode == 1` block. -/
def onGoalPathBlock (sh : Shared) (a : Ant) (lh : List MicroDot) : Res :=
  if a.onGoalPathToIceMode = 1 then
    if hne : sh.goalMicroDotsToIce ≠ [] then
      match onGoalPathLoop sh.goalMicroDotsToIce hne sh.goalMicroDotsToIce.length 0 a with
      | (a, none) => ⟨sh, a, lh, .ok⟩
      | (a, some e) => ⟨sh, a, lh, .crash e⟩
    else ⟨sh, a, lh, .ok⟩
  else ⟨sh, a, lh, .ok⟩

/-- The `if Ant.obtainingIceMode == 1` block: walk to the ice, take a piece
(hasIceMode = 1, Ice.quantity -= 1 with no emptiness check), step back to
the second dot of the thread-local home trail when it has one, and switch
to goingHomeWithIceMode. -/
def obtainingBlock (sh : Shared) (a : Ant) (lh : List MicroDot) : Res :=
  if a.obtainingIceMode = 1 then
    let a := a.turnToPoint 20 (-30)
    let a := a.moveToPoint 20 (-30)
    let a := { a with hasIceMode := 1 }
    let a := { a with obtainingIceMode := 0 }
    let sh := { sh with ice := { sh.ice with quantity := sh.ice.quantity - 1 } }
    if h : 1 < lh.length then
      let p := lh.get ⟨1, h⟩
      let a := a.turnToPoint p.xPosition p.yPosition
      let a := a.moveToPoint p.xPosition p.yPosition
      ⟨sh, a.setModes 0 0 0 0 1 0 0 0, lh, .ok⟩
    else ⟨sh, a.setModes 0 0 0 0 1 0 0 0, lh, .ok⟩
  else ⟨sh, a, lh, .ok⟩

/-- The `if Ant.goingHomeWithIceMode == 1` block.  At the last dot of the
thread-local goalMicroDotsToHome it sets isHomeMode (an IndexError instead
when that list is empty).  Otherwise every branch of the first iteration of
its for loop calls moveToPoint with two arguments, so the block raises:
IndexError when `goalMicroDotsToHome[dot + 1]` is out of range on a
matching dot, TypeError in the remaining branches. -/
def goingHomeWithIceBlock (sh : Shared) (a : Ant) (lh : List MicroDot) : Res :=
  if a.goingHomeWithIceMode = 1 then
    if hne : lh ≠ [] then
      if a.xPosition = (lh.getLast hne).xPosition ∧
          a.yPosition = (lh.getLast hne).yPosition then
        ⟨sh, a.setModes 0 0 0 0 0 0 0 1, lh, .ok⟩
      else
        if (a.xPosition = (lh.get ⟨0, by simpa [List.length_pos] using hne⟩).xPosition ∧
            a.yPosition = (lh.get ⟨0, by simpa [List.length_pos] using hne⟩).yPosition) ∧
            a.xPosition ≠ Lander.xPosition ∧ a.yPosition ≠ Lander.yPosition then
          if 1 < lh.length then ⟨sh, a, lh, .crash .typeError⟩
          else ⟨sh, a, lh, .crash .indexError⟩
        else ⟨sh, a, lh, .crash .typeError⟩
    else ⟨sh, a, lh, .crash .indexError⟩
  else ⟨sh, a, lh, .ok⟩

/-- The `if Ant.goingHomeWithoutIceMode == 1` block: call goingHome and
break out of the inner while loop. -/
def goingHomeWithoutIceBlock (sh : Shared) (a : Ant) (lh : List MicroDot) : Res :=
  if a.goingHomeWithoutIceMode = 1 then
    match a.goingHome sh.goalMicroDotsToHome with
    | (a, none) => ⟨sh, a, lh, .broke⟩
    | (a, some e) => ⟨sh, a, lh, .crash e⟩
  else ⟨sh, a, lh, .ok⟩

/-- One pass of the body of `while Ant.distanceTravelled < 500`: the six
mode-guarded blocks in source order. -/
def innerPass (turnChoice : ℝ) (sh : Shared) (a : Ant) (lh : List MicroDot) : Res :=
  (((((huntingBlock turnChoice sh a lh).andThen
      discoveredBlock).andThen
      onGoalPathBlock).andThen
      obtainingBlock).andThen
      goingHomeWithIceBlock).andThen
      goingHomeWithoutIceBlock

/-- Body of the outermost `while Ant.isHomeMode == 0` loop before the inner
loops: `Ant.direction = random.randint(0, 360)` followed by one random move. -/
def outerBody (r : ℕ) (turnChoice : ℝ) (a : Ant) : Ant :=
  Ant.move { a with direction := (r : ℝ) } turnChoice

/-- The module-level shared state at program start: `Ice = Ice()`,
`goalMicroDotsToIce = deque()`, `goalMicroDotsToHome = []`. -/
def Shared.init : Shared :=
  { ice := Ice.init, goalMicroDotsToIce := [], goalMicroDotsToHome := [] }

/-- Whole-simulation state for n ant threads: the shared objects, each
ant's object, each thread's local goalMicroDotsToHome list, whether the
thread has started (executed the first line of antMovement), and whether
it has died from an uncaught exception. -/
@[ext]
structure SimState (n : ℕ) where
  sh : Shared
  ants : Fin n → Ant
  locals : Fin n → List MicroDot
  started : Fin n → Bool
  crashed : Fin n → Bool

/-- The simulation at program start: ants with ids 1..n at the origin,
none of the threads started yet. -/
def initState (n : ℕ) : SimState n :=
  { sh := Shared.init,
    ants := fun i => mkAnt 0 0 (i.val + 1),
    locals := fun _ => [],
    started := fun _ => false,
    crashed := fun _ => false }

/-- Thread start: the first statement of antMovement binds the
thread-local variable `goalMicroDotsToHome = list(goalMicroDotsToIce)[::-1]`
(note: this shadows the module-global list of the same name). -/
def applyStart {n : ℕ} (s : SimState n) (i : Fin n) : SimState n :=
  { s with
    started := Function.update s.started i true,
    locals := Function.update s.locals i s.sh.goalMicroDotsToIce.reverse }

/-- One execution of the outer-loop body prologue by thread i. -/
def applyOuter {n : ℕ} (s : SimState n) (i : Fin n) (r : ℕ) (turnChoice : ℝ) : SimState n :=
  { s with ants := Function.update s.ants i (outerBody r turnChoice (s.ants i)) }

/-- One inner-loop pass by thread i; a crash kills the thread but keeps
every side effect made before the raising statement. -/
def applyPass {n : ℕ} (s : SimState n) (i : Fin n) (turnChoice : ℝ) : SimState n :=
  let r := innerPass turnChoice s.sh (s.ants i) (s.locals i)
  { sh := r.sh,
    ants := Function.update s.ants i r.a,
    locals := Function.update s.locals i r.lh,
    started := s.started,
    crashed :=
      match r.flow with
      | .crash _ => Function.update s.crashed i true
      | _ => s.crashed }

/-- The while-else branch of the inner loop (runs when
`Ant.distanceTravelled < 500` fails): `Ant.goingHome()`. -/
def applyWhileElse {n : ℕ} (s : SimState n) (i : Fin n) : SimState n :=
  let r := (s.ants i).goingHome s.sh.goalMicroDotsToHome
  { s with
    ants := Function.update s.ants i r.1,
    crashed :=
      match r.2 with
      | some _ => Function.update s.crashed i true
      | none => s.crashed }

/-- Interleaved semantics of the n concurrent antMovement threads.  Each
event is one execution, by one live thread, of a contiguous fragment of
antMovement: the thread prologue, the outer-loop prologue (guarded by the
outer loop's `while Ant.isHomeMode == 0` test), one pass of the body of
the inner `while Ant.distanceTravelled < 500` loop, or that loop's
while-else goingHome call.  The pass and whileElse guards test only
distanceTravelled, exactly as the source's inner loop does -- in
particular a thread whose ant was flagged home inside the loop body keeps
taking passes, which are then no-ops (its mode flags are all clear), so
the inner loop need not terminate.  Each fragment executes atomically
here: that is an assumption the source's single lock (held only around
the positions appends) does not enforce, and the statement-level races
it hides in the found flag and in Ice.quantity are modelled separately
(raceApply, qtyApply below).  Events fire whenever their own loop guard
holds, which only adds interleavings beyond the source's control flow;
random values are constrained exactly as random.randint(0, 360) and
random.choice([-5, 0, 5]) produce them. -/
inductive SimStep {n : ℕ} : SimState n → SimState n → Prop where
  | start (s : SimState n) (i : Fin n) (hs : s.started i = false) :
      SimStep s (applyStart s i)
  | outer (s : SimState n) (i : Fin n) (r : ℕ) (turnChoice : ℝ) (hr : r ≤ 360)
      (ht : turnChoice = -5 ∨ turnChoice = 0 ∨ turnChoice = 5)
      (hs : s.started i = true) (hc : s.crashed i = false)
      (hh : (s.ants i).isHomeMode = 0) :
      SimStep s (applyOuter s i r turnChoice)
  | pass (s : SimState n) (i : Fin n) (turnChoice : ℝ)
      (ht : turnChoice = -5 ∨ turnChoice = 0 ∨ turnChoice = 5)
      (hs : s.started i = true) (hc : s.crashed i = false)
      (hd : (s.ants i).distanceTravelled < 500) :
      SimStep s (applyPass s i turnChoice)
  | whileElse (s : SimState n) (i : Fin n)
      (hs : s.started i = true) (hc : s.crashed i = false)
      (hd : ¬ (s.ants i).distanceTravelled < 500) :
      SimStep s (applyWhileElse s i)

/-- A simulation state reachable from another by the interleaved steps. -/
def Reachable {n : ℕ} : SimState n → SimState n → Prop :=
  Relation.ReflTransGen SimStep

/-- The primitive operations of one ant that touch its own state, for
per-ant lifecycle invariants: everything the source ever does to an Ant
object is a sequence of these. -/
inductive AntOp where
  | moveOp (turnChoice : ℝ) : AntOp
  | moveToPointOp (x y : ℝ) : AntOp
  | turnToPointOp (x y : ℝ) : AntOp
  | dropGoalOp : AntOp
  | setModesOp (m1 m2 m3 m4 m5 m6 m7 m8 : ℕ) : AntOp

/-- An ant together with the two global micro-dot lists dropGoalMicroDot
appends to. -/
structure AntTrack where
  a : Ant
  gIce : List MicroDot
  gHome : List MicroDot

/-- Apply one primitive ant operation. -/
def applyAntOp (t : AntTrack) : AntOp → AntTrack
  | .moveOp c => { t with a := t.a.move c }
  | .moveToPointOp x y => { t with a := t.a.moveToPoint x y }
  | .turnToPointOp x y => { t with a := t.a.turnToPoint x y }
  | .dropGoalOp =>
      let r := t.a.dropGoalMicroDot t.gIce t.gHome
      ⟨r.1, r.2.1, r.2.2⟩
  | .setModesOp m1 m2 m3 m4 m5 m6 m7 m8 => { t with a := t.a.setModes m1 m2 m3 m4 m5 m6 m7 m8 }

/-- Run a sequence of primitive ant operations. -/
def runAntOps (t : AntTrack) (ops : List AntOp) : AntTrack :=
  ops.foldl applyAntOp t

/-- Whether an operation is the dropGoalMicroDot call (the one operation
that appends to pathHistory without counting a step). -/
def AntOp.isDropGoal : AntOp → Bool
  | .dropGoalOp => true
  | _ => false

/-- Statement-level interleaving of the first-discovery protocol of two
hunting threads, refining the hunting block to the granularity of the
source's individual statements.  Program counter of each thread:
0 = about to evaluate the test `if Ice.found == 0`;
1 = test read found == 0, about to execute `Ice.found = 1` (with the
following setModes/iceFinder assignments);
2 = discoveredIceMode set, about to run the discovered block, whose
appends to the trail registry are the publish;
3 = done (either published, or the test read found == 1 and the thread
took the already-found branch).  Nothing here is guarded by the global
lock: in the source the lock is only ever held around the
positions-dictionary appends inside move/moveToPoint. -/
inductive RaceEv where
  | test : RaceEv
  | setFound : RaceEv
  | publish : RaceEv

/-- State of the discovery race: the Ice.found flag, both program
counters, and which threads have executed the trail-publishing block. -/
structure RaceState where
  found : ℕ
  pc : Fin 2 → ℕ
  published : Fin 2 → Bool

/-- Effect of one statement-level event of the discovery protocol. -/
def raceApply (s : RaceState) (i : Fin 2) : RaceEv → RaceState
  | .test =>
      if s.pc i = 0 then
        if s.found = 0 then { s with pc := Function.update s.pc i 1 }
        else { s with pc := Function.update s.pc i 3 }
      else s
  | .setFound =>
      if s.pc i = 1 then { s with found := 1, pc := Function.update s.pc i 2 } else s
  | .publish =>
      if s.pc i = 2 then
        { s with published := Function.update s.published i true, pc := Function.update s.pc i 3 }
      else s

/-- Run a schedule of discovery-protocol events. -/
def raceRun (s : RaceState) : List (Fin 2 × RaceEv) → RaceState
  | [] => s
  | (i, e) :: rest => raceRun (raceApply s i e) rest

/-- Both hunting threads poised at the found-flag test. -/
def raceInit : RaceState :=
  { found := 0, pc := fun _ => 0, published := fun _ => false }

/-- Statement-level events of the obtaining block's shared-counter update:
`Ant.hasIceMode = 1` and the two halves of the unlocked read-modify-write
`Ice.quantity -= 1` (the read of Ice.quantity onto the evaluation stack,
then the store of the decremented value).  As with the discovery race,
none of these statements is guarded by the global lock in the source. -/
inductive QtyEv where
  | setHasIce : QtyEv
  | readQty : QtyEv
  | writeQty : QtyEv

/-- State of the pickup race between two threads in the obtaining block:
the shared Ice.quantity, each thread's read value, and each thread's
hasIceMode flag. -/
structure QtyState where
  quantity : ℤ
  reg : Fin 2 → ℤ
  hasIce : Fin 2 → Bool

/-- Effect of one statement-level event of the pickup. -/
def qtyApply (s : QtyState) (i : Fin 2) : QtyEv → QtyState
  | .setHasIce => { s with hasIce := Function.update s.hasIce i true }
  | .readQty => { s with reg := Function.update s.reg i s.quantity }
  | .writeQty => { s with quantity := s.reg i - 1 }

/-- Run a schedule of pickup events. -/
def qtyRun (s : QtyState) : List (Fin 2 × QtyEv) → QtyState
  | [] => s
  | (i, e) :: rest => qtyRun (qtyApply s i e) rest

/-- Two threads both in obtainingIceMode, about to pick up, with the full
initial quantity still present. -/
def qtyInit : QtyState :=
  { quantity := (ICE_QUANTITY : ℤ), reg := fun _ => 0, hasIce := fun _ => false }

/-- The source fragment claims C1 cites: the hunting block followed by the
discovered block, i.e. the whole Searching-to-Discovered transition of the
first discoverer within one pass. -/
def discoverPhase (turnChoice : ℝ) (sh : Shared) (a : Ant) (lh : List MicroDot) : Res :=
  (huntingBlock turnChoice sh a lh).andThen discoveredBlock

/-- A concrete returning ant used to evaluate goingHome: it stands at
(1, 2) with that single dot as its whole path history. -/
def exAntReturning : Ant :=
  { mkAnt 1 2 1 with pathHistory := [⟨1, 2⟩], distanceTravelled := 1 }

/-- A concrete ant that has just picked up ice at (20, -30) and is in
goingHomeWithIceMode. -/
def exAntWithIce : Ant :=
  { mkAnt 20 (-30) 2 with
    huntingForIceOffPathMode := 0, goingHomeWithIceMode := 1, hasIceMode := 1 }

/-- A concrete thread-local goalMicroDotsToHome list for exAntWithIce: the
reversed snapshot a follower thread takes after the finder published, so
its last dot is the ice location. -/
def exLocalHome : List MicroDot := [⟨5, 5⟩, ⟨20, -30⟩]

/-- A concrete hunting ant standing exactly on the ice, with two dots of
path history, about to make the first discovery. -/
def exAntFinder : Ant :=
  { mkAnt 20 (-30) 1 with
    pathHistory := [⟨0, 0⟩, ⟨20, -30⟩], distanceTravelled := 2,
    positionsLog := [(0, 0), (20, -30)] }

/-- A concrete ant in the shape the returning-with-ice block leaves a
surviving carrier that reached the last thread-local home-trail dot (the
ice): setModes(0,0,0,0,0,0,0,1) cleared all six behaviour modes and set
isHomeMode, hasIceMode is still up, and distanceTravelled is far below
the 500 cap of the inner loop. -/
def exAntHome : Ant :=
  { mkAnt 20 (-30) 2 with
    huntingForIceOffPathMode := 0, isHomeMode := 1, hasIceMode := 1,
    distanceTravelled := 42, pathHistory := [⟨20, -30⟩] }

/-- A simulation state whose thread 0 runs the inner loop with exAntHome:
the loop guard tests only distanceTravelled, every mode-guarded block is
skipped, so each further pass leaves the state unchanged. -/
def exSpinState : SimState 9 :=
  { sh := Shared.init,
    ants := Function.update (initState 9).ants 0 exAntHome,
    locals := Function.update (initState 9).locals 0 [],
    started := Function.update (initState 9).started 0 true,
    crashed := fun _ => false }

/-- The triangular number j * (j + 1) / 2 as a real: total distance
accumulated by the growing random-walk steps after j inner passes. -/
def triangle (j : ℕ) : ℝ := (j : ℝ) * ((j : ℝ) + 1) / 2

/-- The micro dot recorded by the j-th move of the evading ant below:
all its moves keep direction 3 (radians to math.cos), so it walks along
the ray through (cos 3, sin 3), which points away from the ice. -/
def evadeDot (j : ℕ) : MicroDot := ⟨triangle j * Real.cos 3, triangle j * Real.sin 3⟩

/-- Ant 0 of the source configuration after its outer-loop move with
direction 3 and j further hunting passes, every turn choice being 0:
it is at triangle j * (cos 3, sin 3) with j + 1 recorded dots. -/
def evadeAnt (j : ℕ) : Ant :=
  { xPosition := triangle j * Real.cos 3, yPosition := triangle j * Real.sin 3,
    id := 1, direction := 3, distanceTravelled := j + 1,
    pathHistory := (List.range (j + 1)).map evadeDot,
    returnPath := [],
    huntingForIceOffPathMode := 1, onGoalPathToIceMode := 0, discoveredIceMode := 0,
    obtainingIceMode := 0, goingHomeWithIceMode := 0, goingHomeWithoutIceMode := 0,
    needsToRechargeMode := 0, isHomeMode := 0, hasIceMode := 0, iceFinder := 0,
    positionsLog := (0, 0) :: (List.range (j + 1)).map fun i =>
      (triangle i * Real.cos 3, triangle i * Real.sin 3) }

/-- The simulation state in which only thread 0 has run, as the evading
ant after j hunting passes; all other threads have not started. -/
def evadeState (j : ℕ) : SimState 9 :=
  { sh := Shared.init,
    ants := Function.update (initState 9).ants 0 (evadeAnt j),
    locals := Function.update (initState 9).locals 0 [],
    started := Function.update (initState 9).started 0 true,
    crashed := fun _ => false }

/-- Per-ant flag exclusions maintained throughout the simulation: an ant
holding ice has left the hunting/obtaining/discovery modes for good, the
first discoverer never holds ice, and an ant returning with ice holds it. -/
def AntInv (a : Ant) : Prop :=
  (a.hasIceMode = 1 → a.huntingForIceOffPathMode = 0 ∧ a.obtainingIceMode = 0 ∧
    a.discoveredIceMode = 0 ∧ a.iceFinder ≠ 1) ∧
  (a.iceFinder = 1 → a.huntingForIceOffPathMode = 0 ∧ a.obtainingIceMode = 0 ∧
    a.hasIceMode = 0) ∧
  (a.goingHomeWithIceMode = 1 → a.hasIceMode = 1)

/-- What is known about every ant while Ice.found is still 0: nobody has
discovered, obtained or is carrying ice. -/
def FoundZero (a : Ant) : Prop :=
  a.iceFinder = 0 ∧ a.hasIceMode = 0 ∧ a.obtainingIceMode = 0 ∧ a.discoveredIceMode = 0

/-- Number of ants currently holding ice (hasIceMode is set exactly when
an ant executes the obtaining block, and is never reset, so this also
counts the ants that ever reached the returning-with-ice state). -/
def hasIceSum {n : ℕ} (s : SimState n) : ℤ :=
  ∑ i : Fin n, (if (s.ants i).hasIceMode = 1 then (1 : ℤ) else 0)

/-- Number of ants marked as the first discoverer. -/
def finderSum {n : ℕ} (s : SimState n) : ℤ :=
  ∑ i : Fin n, (if (s.ants i).iceFinder = 1 then (1 : ℤ) else 0)

/-- The global inductive invariant of the interleaved simulation:
quantity plus the number of ice holders is conserved, the per-ant flag
exclusions hold, nothing ice-related happened while found = 0, at most one
ant is ever the finder, and no ant ever reaches onGoalPathToIceMode (the
statement that would set it sits directly after an unconditionally raising
2-argument moveToPoint call). -/
def GlobalInv {n : ℕ} (q0 : ℤ) (s : SimState n) : Prop :=
  s.sh.ice.quantity + hasIceSum s = q0 ∧
  (∀ i, AntInv (s.ants i)) ∧
  (s.sh.ice.found = 0 → ∀ i, FoundZero (s.ants i)) ∧
  finderSum s ≤ 1 ∧
  (∀ i, (s.ants i).onGoalPathToIceMode = 0) ∧
  (s.sh.ice.found = 0 ∨ s.sh.ice.found = 1)

/-- Preconditions under which each mode-guarded block of an inner pass is
analysed: the per-ant flag exclusions, no onGoalPathToIceMode, the
found-flag facts. -/
def BlockPre (sh : Shared) (a : Ant) : Prop :=
  AntInv a ∧ a.onGoalPathToIceMode = 0 ∧ (sh.ice.found = 0 → FoundZero a) ∧
  (sh.ice.found = 0 ∨ sh.ice.found = 1)

/-- What one block execution (or a sequence of them) preserves: the flag
exclusions, conservation of quantity plus held ice, monotonicity of the
found flag, that a finder can only appear at the instant found flips, and
that onGoalPathToIceMode stays unset. -/
def BlockSpec (sh : Shared) (a : Ant) (r : Res) : Prop :=
  AntInv r.a ∧
  r.sh.ice.quantity + (if r.a.hasIceMode = 1 then (1 : ℤ) else 0) =
    sh.ice.quantity + (if a.hasIceMode = 1 then (1 : ℤ) else 0) ∧
  (sh.ice.found = 1 → r.sh.ice.found = 1 ∧ r.a.iceFinder = a.iceFinder) ∧
  (sh.ice.found = 0 → FoundZero a →
    ((r.sh.ice.found = 0 ∧ FoundZero r.a) ∨ (r.sh.ice.found = 1 ∧ r.a.iceFinder = 1))) ∧
  r.a.onGoalPathToIceMode = 0 ∧
  (r.sh.ice.found = 0 ∨ r.sh.ice.found = 1)

/-- The absolute wrapped angle difference computed inside Ant.turnToPoint;
abbreviation used to state what turnToPoint does to the direction. -/
def turnDelta (a : Ant) (xNext yNext : ℝ) : ℝ :=
  |pymod (degrees (atan2 (yNext - a.yPosition) (xNext - a.xPosition)) -
      degrees (atan2 a.yPosition a.xPosition) + 180) 360 - 180|

theorem Ant.turnToPoint_eq (a : Ant) (xNext yNext : ℝ) :
    a.turnToPoint xNext yNext = { a with direction := a.direction + turnDelta a xNext yNext } := by
  simp only [Ant.turnToPoint, turnDelta]
  split_ifs with h
  · rw [abs_of_pos h]
  · rw [abs_of_nonpos (not_lt.mp h)]
    ring_nf

theorem Ant.moveToPoint_eq (a : Ant) (xGoalDot yGoalDot : ℝ) :
    a.moveToPoint xGoalDot yGoalDot =
      { a with
        direction := a.direction + turnDelta a xGoalDot yGoalDot,
        xPosition := xGoalDot, yPosition := yGoalDot,
        pathHistory := a.pathHistory ++ [⟨xGoalDot, yGoalDot⟩],
        positionsLog := a.positionsLog ++ [(xGoalDot, yGoalDot)],
        distanceTravelled := a.distanceTravelled + 1 } := by
  simp only [Ant.moveToPoint, Ant.turnToPoint_eq]

theorem Ant.move_eq (a : Ant) (c : ℝ) :
    a.move c =
      { a with
        direction := if a.direction + c > 360 then a.direction + c - 360 else a.direction + c,
        xPosition := a.xPosition + (a.distanceTravelled : ℝ) *
          Real.cos (if a.direction + c > 360 then a.direction + c - 360 else a.direction + c),
        yPosition := a.yPosition + (a.distanceTravelled : ℝ) *
          Real.sin (if a.direction + c > 360 then a.direction + c - 360 else a.direction + c),
        pathHistory := a.pathHistory ++ [⟨a.xPosition + (a.distanceTravelled : ℝ) *
          Real.cos (if a.direction + c > 360 then a.direction + c - 360 else a.direction + c),
          a.yPosition + (a.distanceTravelled : ℝ) *
          Real.sin (if a.direction + c > 360 then a.direction + c - 360 else a.direction + c)⟩],
        positionsLog := a.positionsLog ++ [(a.xPosition + (a.distanceTravelled : ℝ) *
          Real.cos (if a.direction + c > 360 then a.direction + c - 360 else a.direction + c),
          a.yPosition + (a.distanceTravelled : ℝ) *
          Real.sin (if a.direction + c > 360 then a.direction + c - 360 else a.direction + c))],
        distanceTravelled := a.distanceTravelled + 1 } := by
  simp only [Ant.move]

/-- C9: for every call to Ant.turnToPoint, the direction afterwards equals
the direction before plus the absolute value of the wrapped angle
difference (a positive difference is added, a non-positive one is
subtracted), so turnToPoint never decreases the direction value, whichever
side the target lies on. -/
theorem c9_turnToPoint_never_decreases (a : Ant) (xNext yNext : ℝ) :
    a.direction ≤ (a.turnToPoint xNext yNext).direction ∧
    (a.turnToPoint xNext yNext).direction = a.direction + turnDelta a xNext yNext := by
  rw [Ant.turnToPoint_eq]
  exact ⟨le_add_of_nonneg_right (abs_nonneg _), rfl⟩

/-- C10: Ant.moveToPoint always teleports the ant exactly onto the target
point, appends exactly one MicroDot with the target coordinates to the
path history, and adds exactly 1 to distanceTravelled, with no condition
whatsoever on the Euclidean distance covered by the jump. -/
theorem c10_moveToPoint_jump (a : Ant) (xGoalDot yGoalDot : ℝ) :
    (a.moveToPoint xGoalDot yGoalDot).xPosition = xGoalDot ∧
    (a.moveToPoint xGoalDot yGoalDot).yPosition = yGoalDot ∧
    (a.moveToPoint xGoalDot yGoalDot).pathHistory =
      a.pathHistory ++ [⟨xGoalDot, yGoalDot⟩] ∧
    (a.moveToPoint xGoalDot yGoalDot).distanceTravelled = a.distanceTravelled + 1 := by
  rw [Ant.moveToPoint_eq]
  exact ⟨rfl, rfl, rfl, rfl⟩

/-- C2 (amended): a searching step turns by the uniformly chosen delta
from the fixed set {-5, 0, 5} (with the one-sided wrap at 360), appends
exactly one Marker, counts one step, and advances the position by a step
whose Euclidean length equals the current distanceTravelled counter --
the step length grows with the step index instead of being a fixed
constant. -/
theorem c2_move_step (a : Ant) (c : ℝ) (hc : c = -5 ∨ c = 0 ∨ c = 5) :
    (a.move c).direction =
      (if a.direction + c > 360 then a.direction + c - 360 else a.direction + c) ∧
    hypot ((a.move c).xPosition - a.xPosition) ((a.move c).yPosition - a.yPosition) =
      (a.distanceTravelled : ℝ) ∧
    (a.move c).pathHistory =
      a.pathHistory ++ [⟨(a.move c).xPosition, (a.move c).yPosition⟩] ∧
    (a.move c).distanceTravelled = a.distanceTravelled + 1 := by
  rw [Ant.move_eq]
  refine ⟨rfl, ?_, rfl, rfl⟩
  dsimp only
  unfold hypot
  have hθ := Real.sin_sq_add_cos_sq
    (if a.direction + c > 360 then a.direction + c - 360 else a.direction + c)
  have h2 : (a.xPosition + (a.distanceTravelled : ℝ) *
        Real.cos (if a.direction + c > 360 then a.direction + c - 360 else a.direction + c) -
        a.xPosition) ^ 2 +
      (a.yPosition + (a.distanceTravelled : ℝ) *
        Real.sin (if a.direction + c > 360 then a.direction + c - 360 else a.direction + c) -
        a.yPosition) ^ 2 = ((a.distanceTravelled : ℝ)) ^ 2 := by nlinarith [hθ]
  rw [h2, Real.sqrt_sq (by positivity)]

/-- C2 witness: the move theorem applied to a freshly created ant with
turn choice 0. -/
theorem c2_move_step_witness :
    ((0 : ℝ) = -5 ∨ (0 : ℝ) = 0 ∨ (0 : ℝ) = 5) ∧
    hypot (((mkAnt 0 0 1).move 0).xPosition - (mkAnt 0 0 1).xPosition)
        (((mkAnt 0 0 1).move 0).yPosition - (mkAnt 0 0 1).yPosition) =
      ((mkAnt 0 0 1).distanceTravelled : ℝ) :=
  ⟨Or.inr (Or.inl rfl), (c2_move_step (mkAnt 0 0 1) 0 (Or.inr (Or.inl rfl))).2.1⟩

/-- C2 counterexample: the step length is not a fixed, step-independent
constant.  With identical inputs (turn choice 0 both times), a fresh
ant's first move covers Euclidean distance 0 and its second move covers
distance 1. -/
theorem c2_counterexample :
    hypot (((mkAnt 0 0 1).move 0).xPosition - (mkAnt 0 0 1).xPosition)
        (((mkAnt 0 0 1).move 0).yPosition - (mkAnt 0 0 1).yPosition) = 0 ∧
    hypot ((((mkAnt 0 0 1).move 0).move 0).xPosition - ((mkAnt 0 0 1).move 0).xPosition)
        ((((mkAnt 0 0 1).move 0).move 0).yPosition - ((mkAnt 0 0 1).move 0).yPosition) = 1 ∧
    (0 : ℝ) ≠ 1 := by
  have h1 := (c2_move_step (mkAnt 0 0 1) 0 (Or.inr (Or.inl rfl))).2.1
  have h2 := (c2_move_step ((mkAnt 0 0 1).move 0) 0 (Or.inr (Or.inl rfl))).2.1
  have e1 : ((mkAnt 0 0 1).distanceTravelled : ℝ) = 0 := by simp [mkAnt]
  have e2 : (((mkAnt 0 0 1).move 0).distanceTravelled : ℝ) = 1 := by
    rw [Ant.move_eq]; simp [mkAnt]
  rw [e1] at h1
  rw [e2] at h2
  exact ⟨h1, h2, by norm_num⟩

theorem MicroDot.eta (d : MicroDot) :
    (⟨d.xPosition, d.yPosition⟩ : MicroDot) = d := rfl

theorem walkLoop_isHome (l : List MicroDot) :
    ∀ (fuel dot : ℕ) (a : Ant), a.isHomeMode = 0 →
      (walkLoop l fuel dot a).isHomeMode = 1 →
      (walkLoop l fuel dot a).xPosition = Lander.xPosition ∧
      (walkLoop l fuel dot a).yPosition = Lander.yPosition := by
  intro fuel
  induction fuel with
  | zero =>
    intro dot a h0 h1
    rw [walkLoop] at h1
    omega
  | succ fuel ih =>
    intro dot a h0 h1
    rw [walkLoop] at h1 ⊢
    by_cases hd : dot < l.length
    · rw [dif_pos hd] at h1 ⊢
      by_cases hmatch : a.xPosition = (l.get ⟨dot, hd⟩).xPosition ∧
          a.yPosition = (l.get ⟨dot, hd⟩).yPosition
      · rw [if_pos hmatch] at h1 ⊢
        by_cases h2 : dot + 1 < l.length
        · rw [dif_pos h2] at h1 ⊢
          exact ih (dot + 1) _ (by rw [Ant.moveToPoint_eq]; exact h0) h1
        · rw [dif_neg h2] at h1 ⊢
          constructor <;> simp [Ant.setModes, Ant.moveToPoint_eq]
      · rw [if_neg hmatch] at h1 ⊢
        exact ih _ _ h0 h1
    · rw [dif_neg hd] at h1 ⊢
      omega

theorem walkLoop_run (l : List MicroDot) :
    ∀ (fuel dot : ℕ) (a : Ant), fuel = l.length - dot →
      ∀ hdot : dot < l.length,
      a.xPosition = (l.get ⟨dot, hdot⟩).xPosition →
      a.yPosition = (l.get ⟨dot, hdot⟩).yPosition →
      (walkLoop l fuel dot a).isHomeMode = 1 ∧
      (walkLoop l fuel dot a).xPosition = Lander.xPosition ∧
      (walkLoop l fuel dot a).yPosition = Lander.yPosition ∧
      (walkLoop l fuel dot a).pathHistory =
        a.pathHistory ++ l.drop (dot + 1) ++ [⟨Lander.xPosition, Lander.yPosition⟩] ∧
      (walkLoop l fuel dot a).returnPath = a.returnPath ∧
      (walkLoop l fuel dot a).distanceTravelled =
        a.distanceTravelled + (l.length - dot) ∧
      (walkLoop l fuel dot a).hasIceMode = a.hasIceMode := by
  intro fuel
  induction fuel with
  | zero =>
    intro dot a hfuel hdot hx hy
    omega
  | succ fuel ih =>
    intro dot a hfuel hdot hx hy
    rw [walkLoop]
    rw [dif_pos hdot, if_pos ⟨hx, hy⟩]
    by_cases h2 : dot + 1 < l.length
    · rw [dif_pos h2]
      have hfuel2 : fuel = l.length - (dot + 1) := by omega
      have hx2 : (a.moveToPoint (l.get ⟨dot + 1, h2⟩).xPosition
          (l.get ⟨dot + 1, h2⟩).yPosition).xPosition = (l.get ⟨dot + 1, h2⟩).xPosition := by
        rw [Ant.moveToPoint_eq]
      have hy2 : (a.moveToPoint (l.get ⟨dot + 1, h2⟩).xPosition
          (l.get ⟨dot + 1, h2⟩).yPosition).yPosition = (l.get ⟨dot + 1, h2⟩).yPosition := by
        rw [Ant.moveToPoint_eq]
      obtain ⟨k1, k2, k3, k4, k5, k6, k7⟩ := ih (dot + 1) _ hfuel2 h2 hx2 hy2
      refine ⟨k1, k2, k3, ?_, ?_, ?_, ?_⟩
      · rw [k4, Ant.moveToPoint_eq]
        have hdrop : l.drop (dot + 1) = l.get ⟨dot + 1, h2⟩ :: l.drop (dot + 2) := by
          rw [List.drop_eq_get_cons h2]
        rw [hdrop]
        simp [MicroDot.eta]
      · rw [k5, Ant.moveToPoint_eq]
      · rw [k6, Ant.moveToPoint_eq]
        show a.distanceTravelled + 1 + (l.length - (dot + 1)) = _
        omega
      · rw [k7, Ant.moveToPoint_eq]
    · rw [dif_neg h2]
      have hlen : l.length = dot + 1 := by omega
      refine ⟨by simp [Ant.setModes], by simp [Ant.setModes, Ant.moveToPoint_eq],
        by simp [Ant.setModes, Ant.moveToPoint_eq], ?_, ?_, ?_, ?_⟩
      · simp only [Ant.setModes, Ant.moveToPoint_eq]
        rw [List.drop_eq_nil_of_le (by omega)]
        simp
      · simp [Ant.setModes, Ant.moveToPoint_eq]
      · simp only [Ant.setModes, Ant.moveToPoint_eq]
        show a.distanceTravelled + 1 = _
        omega
      · simp [Ant.setModes, Ant.moveToPoint_eq]

theorem get_zero_reverse_append (l : List MicroDot) (d : MicroDot) (hne : l ≠ [])
    (h0 : 0 < (l.reverse ++ [d]).length) :
    (l.reverse ++ [d]).get ⟨0, h0⟩ = l.getLast hne := by
  obtain rfl | ⟨ys, x, hl⟩ := List.eq_nil_or_concat l
  · exact absurd rfl hne
  · subst hl
    simp [List.getLast_append]

theorem goingHome_retrace (a : Ant) (gh : List MicroDot)
    (hice : a.hasIceMode = 0) (hrp : a.returnPath = [])
    (hne : a.pathHistory ≠ [])
    (hx : a.xPosition = (a.pathHistory.getLast hne).xPosition)
    (hy : a.yPosition = (a.pathHistory.getLast hne).yPosition) :
    (a.goingHome gh).2 = none ∧
    (a.goingHome gh).1.isHomeMode = 1 ∧
    (a.goingHome gh).1.xPosition = Lander.xPosition ∧
    (a.goingHome gh).1.yPosition = Lander.yPosition ∧
    (a.goingHome gh).1.returnPath =
      a.pathHistory.reverse ++ [⟨Lander.xPosition, Lander.yPosition⟩] ∧
    (a.goingHome gh).1.pathHistory =
      a.pathHistory ++ (a.pathHistory.reverse.drop 1 ++
        [⟨Lander.xPosition, Lander.yPosition⟩, ⟨Lander.xPosition, Lander.yPosition⟩]) ∧
    (a.goingHome gh).1.distanceTravelled =
      a.distanceTravelled + (a.pathHistory.length + 1) := by
  have hpos : 0 < a.pathHistory.length := List.length_pos.mpr hne
  have hrplen :
      (a.pathHistory.reverse ++ [(⟨Lander.xPosition, Lander.yPosition⟩ : MicroDot)]).length =
        a.pathHistory.length + 1 := by simp
  have h1lt :
      1 < (a.pathHistory.reverse ++ [(⟨Lander.xPosition, Lander.yPosition⟩ : MicroDot)]).length := by
    omega
  have hgh : a.goingHome gh =
      (walkLoop (a.pathHistory.reverse ++ [⟨Lander.xPosition, Lander.yPosition⟩])
        (a.pathHistory.reverse ++ [(⟨Lander.xPosition, Lander.yPosition⟩ : MicroDot)]).length 0
        (Ant.turnToPoint
          { a with returnPath := a.pathHistory.reverse ++ [⟨Lander.xPosition, Lander.yPosition⟩] }
          ((a.pathHistory.reverse ++
              [(⟨Lander.xPosition, Lander.yPosition⟩ : MicroDot)]).get ⟨1, h1lt⟩).xPosition
          ((a.pathHistory.reverse ++
              [(⟨Lander.xPosition, Lander.yPosition⟩ : MicroDot)]).get ⟨1, h1lt⟩).yPosition),
        none) := by
    rw [Ant.goingHome]
    rw [if_pos hice, if_pos hrp, dif_pos h1lt]
  have h0lt :
      0 < (a.pathHistory.reverse ++ [(⟨Lander.xPosition, Lander.yPosition⟩ : MicroDot)]).length := by
    omega
  have hx2 : (Ant.turnToPoint
      { a with returnPath := a.pathHistory.reverse ++ [⟨Lander.xPosition, Lander.yPosition⟩] }
      ((a.pathHistory.reverse ++
          [(⟨Lander.xPosition, Lander.yPosition⟩ : MicroDot)]).get ⟨1, h1lt⟩).xPosition
      ((a.pathHistory.reverse ++
          [(⟨Lander.xPosition, Lander.yPosition⟩ : MicroDot)]).get ⟨1, h1lt⟩).yPosition).xPosition =
      ((a.pathHistory.reverse ++
        [(⟨Lander.xPosition, Lander.yPosition⟩ : MicroDot)]).get ⟨0, h0lt⟩).xPosition := by
    rw [Ant.turnToPoint_eq, get_zero_reverse_append _ _ hne]
    exact hx
  have hy2 : (Ant.turnToPoint
      { a with returnPath := a.pathHistory.reverse ++ [⟨Lander.xPosition, Lander.yPosition⟩] }
      ((a.pathHistory.reverse ++
          [(⟨Lander.xPosition, Lander.yPosition⟩ : MicroDot)]).get ⟨1, h1lt⟩).xPosition
      ((a.pathHistory.reverse ++
          [(⟨Lander.xPosition, Lander.yPosition⟩ : MicroDot)]).get ⟨1, h1lt⟩).yPosition).yPosition =
      ((a.pathHistory.reverse ++
        [(⟨Lander.xPosition, Lander.yPosition⟩ : MicroDot)]).get ⟨0, h0lt⟩).yPosition := by
    rw [Ant.turnToPoint_eq, get_zero_reverse_append _ _ hne]
    exact hy
  obtain ⟨k1, k2, k3, k4, k5, k6, k7⟩ :=
    walkLoop_run (a.pathHistory.reverse ++ [⟨Lander.xPosition, Lander.yPosition⟩])
      (a.pathHistory.reverse ++ [(⟨Lander.xPosition, Lander.yPosition⟩ : MicroDot)]).length 0
      (Ant.turnToPoint
        { a with returnPath := a.pathHistory.reverse ++ [⟨Lander.xPosition, Lander.yPosition⟩] }
        ((a.pathHistory.reverse ++
            [(⟨Lander.xPosition, Lander.yPosition⟩ : MicroDot)]).get ⟨1, h1lt⟩).xPosition
        ((a.pathHistory.reverse ++
            [(⟨Lander.xPosition, Lander.yPosition⟩ : MicroDot)]).get ⟨1, h1lt⟩).yPosition)
      (by omega) h0lt hx2 hy2
  rw [hgh]
  refine ⟨rfl, k1, k2, k3, ?_, ?_, ?_⟩
  · rw [k5, Ant.turnToPoint_eq]
  · rw [k4, Ant.turnToPoint_eq]
    show a.pathHistory ++ _ ++ _ = _
    rw [List.drop_append_of_le_length (by simp; omega)]
    simp
  · rw [k6, Ant.turnToPoint_eq]
    show a.distanceTravelled + _ = _
    omega

theorem reverse_drop_one_reverse (l : List MicroDot) :
    (l.reverse.drop 1).reverse = l.dropLast := by
  obtain rfl | ⟨ys, x, hl⟩ := List.eq_nil_or_concat l
  · simp
  · subst hl
    simp [List.concat_eq_append]

/-- C6 (amended): whenever Ant.goingHome flags an ant as home, the final
moveToPoint was to the Lander, so the position is exactly the Origin.
(The returning-with-ice block of antMovement, treated in this claim's
counterexample, instead flags home at the last thread-local home-trail
dot, which is the ice location, not the Origin.) -/
theorem c6_goingHome_home_at_origin (a : Ant) (gh : List MicroDot)
    (h0 : a.isHomeMode = 0) (h1 : (a.goingHome gh).1.isHomeMode = 1) :
    (a.goingHome gh).1.xPosition = Lander.xPosition ∧
    (a.goingHome gh).1.yPosition = Lander.yPosition := by
  rw [Ant.goingHome] at h1 ⊢
  by_cases hice : a.hasIceMode = 0
  · rw [if_pos hice] at h1 ⊢
    by_cases hrp : a.returnPath = []
    · rw [if_pos hrp] at h1 ⊢
      by_cases hlen : 1 <
          (a.pathHistory.reverse ++ [(⟨Lander.xPosition, Lander.yPosition⟩ : MicroDot)]).length
      · rw [dif_pos hlen] at h1 ⊢
        exact walkLoop_isHome _ _ _ _ (by rw [Ant.turnToPoint_eq]; exact h0) h1
      · rw [dif_neg hlen] at h1 ⊢
        have h1e : a.isHomeMode = 1 := h1
        omega
    · rw [if_neg hrp] at h1 ⊢
      exact walkLoop_isHome _ _ _ _ h0 h1
  · rw [if_neg hice] at h1 ⊢
    exact walkLoop_isHome _ _ _ _ h0 h1

theorem exAnt_retrace_eval :
    (exAntReturning.goingHome []).2 = none ∧
    (exAntReturning.goingHome []).1.isHomeMode = 1 ∧
    (exAntReturning.goingHome []).1.returnPath =
      [⟨1, 2⟩, ⟨Lander.xPosition, Lander.yPosition⟩] ∧
    (exAntReturning.goingHome []).1.pathHistory =
      [⟨1, 2⟩, ⟨Lander.xPosition, Lander.yPosition⟩, ⟨Lander.xPosition, Lander.yPosition⟩] := by
  obtain ⟨k1, k2, k3, k4, k5, k6, k7⟩ :=
    goingHome_retrace exAntReturning [] rfl rfl (by simp [exAntReturning, mkAnt])
      (by simp [exAntReturning, mkAnt]) (by simp [exAntReturning, mkAnt])
  refine ⟨k1, k2, ?_, ?_⟩
  · rw [k5]
    simp [exAntReturning]
  · rw [k6]
    simp [exAntReturning]

/-- C6 witness: the goingHome position theorem applied to a concrete
returning ant standing at (1, 2) with that dot as its path history. -/
theorem c6_goingHome_home_at_origin_witness :
    exAntReturning.isHomeMode = 0 ∧
    (exAntReturning.goingHome []).1.isHomeMode = 1 ∧
    ((exAntReturning.goingHome []).1.xPosition = Lander.xPosition ∧
      (exAntReturning.goingHome []).1.yPosition = Lander.yPosition) :=
  ⟨rfl, exAnt_retrace_eval.2.1,
    c6_goingHome_home_at_origin exAntReturning [] rfl exAnt_retrace_eval.2.1⟩

/-- C6 counterexample: the claim that Home is reached only with the
position at the Origin is false for the returning-with-ice block of
antMovement: an ant at the last thread-local home-trail dot (the ice at
(20, -30)) is flagged home there, away from the Origin. -/
theorem c6_counterexample :
    (goingHomeWithIceBlock Shared.init exAntWithIce exLocalHome).a.isHomeMode = 1 ∧
    ¬ ((goingHomeWithIceBlock Shared.init exAntWithIce exLocalHome).a.xPosition =
        Lander.xPosition ∧
      (goingHomeWithIceBlock Shared.init exAntWithIce exLocalHome).a.yPosition =
        Lander.yPosition) := by
  have hblock : goingHomeWithIceBlock Shared.init exAntWithIce exLocalHome =
      ⟨Shared.init, exAntWithIce.setModes 0 0 0 0 0 0 0 1, exLocalHome, .ok⟩ := by
    rw [goingHomeWithIceBlock]
    rw [if_pos (show exAntWithIce.goingHomeWithIceMode = 1 from rfl),
      dif_pos (by simp [exLocalHome])]
    rw [if_pos (by constructor <;> simp [exLocalHome, exAntWithIce, mkAnt])]
  rw [hblock]
  constructor
  · rfl
  · rintro ⟨hx, hy⟩
    have : (20 : ℝ) = 0 := hx
    norm_num at this

/-- C7 (amended): for an agent returning without ice, the constructed
returnPath is the reversed outbound path history with the Origin appended,
and the points visited during the retrace, read in reverse, are the Origin
twice followed by the outbound path with its last point removed -- not the
outbound path itself element for element. -/
theorem c7_retrace_roundtrip (a : Ant) (gh : List MicroDot)
    (hice : a.hasIceMode = 0) (hrp : a.returnPath = [])
    (hne : a.pathHistory ≠ [])
    (hx : a.xPosition = (a.pathHistory.getLast hne).xPosition)
    (hy : a.yPosition = (a.pathHistory.getLast hne).yPosition) :
    (a.goingHome gh).1.returnPath =
      a.pathHistory.reverse ++ [⟨Lander.xPosition, Lander.yPosition⟩] ∧
    ((a.goingHome gh).1.pathHistory.drop a.pathHistory.length).reverse =
      ⟨Lander.xPosition, Lander.yPosition⟩ :: ⟨Lander.xPosition, Lander.yPosition⟩ ::
        a.pathHistory.dropLast := by
  obtain ⟨-, -, -, -, k5, k6, -⟩ := goingHome_retrace a gh hice hrp hne hx hy
  refine ⟨k5, ?_⟩
  rw [k6, List.drop_left, List.reverse_append, reverse_drop_one_reverse]
  rfl

/-- C7 witness: the retrace theorem applied to the concrete returning ant. -/
theorem c7_retrace_roundtrip_witness :
    (exAntReturning.goingHome []).1.returnPath =
      exAntReturning.pathHistory.reverse ++ [⟨Lander.xPosition, Lander.yPosition⟩] ∧
    ((exAntReturning.goingHome []).1.pathHistory.drop
        exAntReturning.pathHistory.length).reverse =
      ⟨Lander.xPosition, Lander.yPosition⟩ :: ⟨Lander.xPosition, Lander.yPosition⟩ ::
        exAntReturning.pathHistory.dropLast :=
  c7_retrace_roundtrip exAntReturning [] rfl rfl (by simp [exAntReturning, mkAnt])
    (by simp [exAntReturning, mkAnt]) (by simp [exAntReturning, mkAnt])

/-- C7 counterexample: for the concrete returning ant with outbound path
[(1, 2)], the points visited while returning are [(0, 0), (0, 0)]; read in
reverse they differ from the outbound path, and the stored returnPath is
not the plain reversal of the outbound path (the Origin got appended). -/
theorem c7_counterexample :
    ((exAntReturning.goingHome []).1.pathHistory.drop
        exAntReturning.pathHistory.length).reverse ≠ exAntReturning.pathHistory ∧
    (exAntReturning.goingHome []).1.returnPath ≠ exAntReturning.pathHistory.reverse := by
  obtain ⟨-, -, k5, k6⟩ := exAnt_retrace_eval
  constructor
  · rw [k6]
    intro h
    have hlen := congrArg List.length h
    simp [exAntReturning] at hlen
  · rw [k5]
    intro h
    have hlen := congrArg List.length h
    simp [exAntReturning] at hlen

/-- C5 (amended): the goingHome retrace itself terminates -- it raises
nothing and flags the agent home -- but it appends the reversed history
plus two Origin dots, so the final path-history length is 2n + 1 for an
outbound history of length n, not bounded by the step budget the
outbound phase was capped at.  The loops of antMovement, by contrast,
need not terminate at all: the inner while tests only distanceTravelled,
never isHomeMode, so an agent flagged home inside the loop body keeps
executing passes that skip every block and change nothing (this claim's
counterexample exhibits both the over-long final history and the
stutter pass). -/
theorem c5_retrace_length (a : Ant) (gh : List MicroDot)
    (hice : a.hasIceMode = 0) (hrp : a.returnPath = [])
    (hne : a.pathHistory ≠ [])
    (hx : a.xPosition = (a.pathHistory.getLast hne).xPosition)
    (hy : a.yPosition = (a.pathHistory.getLast hne).yPosition) :
    (a.goingHome gh).2 = none ∧
    (a.goingHome gh).1.isHomeMode = 1 ∧
    (a.goingHome gh).1.pathHistory.length = 2 * a.pathHistory.length + 1 := by
  obtain ⟨k1, k2, -, -, -, k6, -⟩ := goingHome_retrace a gh hice hrp hne hx hy
  refine ⟨k1, k2, ?_⟩
  rw [k6]
  have hpos := List.length_pos.mpr hne
  simp only [List.length_append, List.length_drop, List.length_reverse, List.length_cons,
    List.length_nil]
  omega

/-- C5 witness: the retrace-length theorem applied to the concrete
returning ant with a one-dot outbound history: final length 3 = 2*1 + 1. -/
theorem c5_retrace_length_witness :
    (exAntReturning.goingHome []).2 = none ∧
    (exAntReturning.goingHome []).1.isHomeMode = 1 ∧
    (exAntReturning.goingHome []).1.pathHistory.length =
      2 * exAntReturning.pathHistory.length + 1 :=
  c5_retrace_length exAntReturning [] rfl rfl (by simp [exAntReturning, mkAnt])
    (by simp [exAntReturning, mkAnt]) (by simp [exAntReturning, mkAnt])

theorem discoverPhase_spec (c : ℝ) (sh : Shared) (a : Ant) (lh : List MicroDot)
    (hhunt : a.huntingForIceOffPathMode = 1)
    (hfound : sh.ice.found = 0)
    (hin : hypot ((a.move c).xPosition - sh.ice.xPosition)
      ((a.move c).yPosition - sh.ice.yPosition) ≤ (sh.ice.radius : ℝ) + 10)
    (hlen : 1 ≤ a.pathHistory.length) :
    (discoverPhase c sh a lh).flow = .ok ∧
    (discoverPhase c sh a lh).sh.ice.found = 1 ∧
    (discoverPhase c sh a lh).a.iceFinder = 1 ∧
    (discoverPhase c sh a lh).a.goingHomeWithoutIceMode = 1 ∧
    (discoverPhase c sh a lh).a.huntingForIceOffPathMode = 0 ∧
    (discoverPhase c sh a lh).sh.ice.quantity = sh.ice.quantity ∧
    (discoverPhase c sh a lh).a.hasIceMode = a.hasIceMode ∧
    (discoverPhase c sh a lh).sh.goalMicroDotsToIce =
      sh.goalMicroDotsToIce ++
        [⟨20, -30⟩, ⟨(a.move c).xPosition, (a.move c).yPosition⟩] ∧
    (discoverPhase c sh a lh).lh = lh ++ [⟨20, -30⟩] ∧
    (discoverPhase c sh a lh).a.pathHistory =
      (a.move c).pathHistory ++ [⟨(a.move c).xPosition, (a.move c).yPosition⟩] := by
  have hub : huntingBlock c sh a lh =
      ⟨{ sh with ice := { sh.ice with found := 1 } },
        { (a.move c).setModes 0 0 1 0 0 0 0 0 with iceFinder := 1 }, lh, .ok⟩ := by
    rw [huntingBlock, if_pos hhunt, if_pos hin, if_pos hfound]
  have hdp : discoverPhase c sh a lh =
      discoveredBlock { sh with ice := { sh.ice with found := 1 } }
        { (a.move c).setModes 0 0 1 0 0 0 0 0 with iceFinder := 1 } lh := by
    rw [discoverPhase, hub]
    rfl
  have hlen2 : 2 ≤
      ({ (a.move c).setModes 0 0 1 0 0 0 0 0 with iceFinder := 1 } : Ant).pathHistory.length := by
    rw [Ant.move_eq]
    simp [Ant.setModes]
    omega
  rw [hdp, discoveredBlock,
    if_pos (show ({ (a.move c).setModes 0 0 1 0 0 0 0 0 with
      iceFinder := 1 } : Ant).discoveredIceMode = 1 from rfl),
    dif_pos hlen2]
  simp [Ant.dropGoalMicroDot, Ant.setModes, Ant.turnToPoint_eq]
  rw [Ant.move_eq]

/-- C1 (amended): when a hunting agent moves within Ice.radius + 10 of the
Resource and the found flag is still unset, it becomes the first
discoverer: Ice.found flips to 1, the agent gets iceFinder = 1, leaves
hunting mode for goingHomeWithoutIceMode, and publishes to the shared
goalMicroDotsToIce trail exactly two dots -- the ice location (20, -30)
and its own current position (not its reversed path).  The Resource
quantity is left untouched and the holds-resource flag stays as it was
(the first discoverer does not pick up ice). -/
theorem c1_first_discovery (c : ℝ) (sh : Shared) (a : Ant) (lh : List MicroDot)
    (hhunt : a.huntingForIceOffPathMode = 1)
    (hfound : sh.ice.found = 0)
    (hin : hypot ((a.move c).xPosition - sh.ice.xPosition)
      ((a.move c).yPosition - sh.ice.yPosition) ≤ (sh.ice.radius : ℝ) + 10)
    (hlen : 1 ≤ a.pathHistory.length) :
    (discoverPhase c sh a lh).flow = .ok ∧
    (discoverPhase c sh a lh).sh.ice.found = 1 ∧
    (discoverPhase c sh a lh).a.iceFinder = 1 ∧
    (discoverPhase c sh a lh).a.goingHomeWithoutIceMode = 1 ∧
    (discoverPhase c sh a lh).a.huntingForIceOffPathMode = 0 ∧
    (discoverPhase c sh a lh).sh.ice.quantity = sh.ice.quantity ∧
    (discoverPhase c sh a lh).a.hasIceMode = a.hasIceMode ∧
    (discoverPhase c sh a lh).sh.goalMicroDotsToIce =
      sh.goalMicroDotsToIce ++
        [⟨20, -30⟩, ⟨(a.move c).xPosition, (a.move c).yPosition⟩] ∧
    (discoverPhase c sh a lh).lh = lh ++ [⟨20, -30⟩] ∧
    (discoverPhase c sh a lh).a.pathHistory =
      (a.move c).pathHistory ++ [⟨(a.move c).xPosition, (a.move c).yPosition⟩] :=
  discoverPhase_spec c sh a lh hhunt hfound hin hlen

theorem sqrt_four : Real.sqrt 4 = 2 := by
  rw [show (4 : ℝ) = 2 ^ 2 by norm_num, Real.sqrt_sq (by norm_num)]

theorem exFinder_move_pos :
    (exAntFinder.move 0).xPosition = 22 ∧ (exAntFinder.move 0).yPosition = -30 := by
  rw [Ant.move_eq]
  constructor <;> norm_num [exAntFinder, mkAnt, Real.cos_zero, Real.sin_zero]

theorem exFinder_move_in_range :
    hypot ((exAntFinder.move 0).xPosition - Shared.init.ice.xPosition)
      ((exAntFinder.move 0).yPosition - Shared.init.ice.yPosition) ≤
      (Shared.init.ice.radius : ℝ) + 10 := by
  rw [exFinder_move_pos.1, exFinder_move_pos.2]
  show hypot _ _ ≤ _
  norm_num [Shared.init, Ice.init, hypot]
  rw [sqrt_four]
  norm_num

/-- C1 witness: the discovery theorem applied to a concrete hunting ant
standing on the ice with the found flag unset. -/
theorem c1_first_discovery_witness :
    (discoverPhase 0 Shared.init exAntFinder []).sh.ice.found = 1 ∧
    (discoverPhase 0 Shared.init exAntFinder []).a.iceFinder = 1 ∧
    (discoverPhase 0 Shared.init exAntFinder []).sh.ice.quantity =
      Shared.init.ice.quantity ∧
    (discoverPhase 0 Shared.init exAntFinder []).a.hasIceMode =
      exAntFinder.hasIceMode := by
  obtain ⟨-, k2, k3, -, -, k6, k7, -, -, -⟩ :=
    c1_first_discovery 0 Shared.init exAntFinder [] rfl rfl exFinder_move_in_range
      (by simp [exAntFinder, mkAnt])
  exact ⟨k2, k3, k6, k7⟩

/-- C1 counterexample: at a concrete first discovery the claimed side
effects fail: Resource quantity stays 9 (it is not decremented to 8), the
holds-resource flag stays 0 (it is not flipped to 1), and the published
trail is not the agent's reversed path (it has two dots, the path four). -/
theorem c1_counterexample :
    (discoverPhase 0 Shared.init exAntFinder []).sh.ice.found = 1 ∧
    (discoverPhase 0 Shared.init exAntFinder []).sh.ice.quantity = 9 ∧
    ¬ ((discoverPhase 0 Shared.init exAntFinder []).sh.ice.quantity =
      Shared.init.ice.quantity - 1) ∧
    (discoverPhase 0 Shared.init exAntFinder []).a.hasIceMode = 0 ∧
    ¬ ((discoverPhase 0 Shared.init exAntFinder []).a.hasIceMode = 1) ∧
    (discoverPhase 0 Shared.init exAntFinder []).sh.goalMicroDotsToIce ≠
      (discoverPhase 0 Shared.init exAntFinder []).a.pathHistory.reverse := by
  obtain ⟨-, k2, -, -, -, k6, k7, k8, -, k10⟩ :=
    discoverPhase_spec 0 Shared.init exAntFinder [] rfl rfl exFinder_move_in_range
      (by simp [exAntFinder, mkAnt])
  have hq : (discoverPhase 0 Shared.init exAntFinder []).sh.ice.quantity = 9 := by
    rw [k6]; rfl
  have hh : (discoverPhase 0 Shared.init exAntFinder []).a.hasIceMode = 0 := by
    rw [k7]; rfl
  refine ⟨k2, hq, ?_, hh, ?_, ?_⟩
  · rw [hq]
    show ¬ (9 : ℤ) = 9 - 1
    norm_num
  · rw [hh]
    norm_num
  · intro heq
    have hlen := congrArg List.length heq
    rw [k8, k10, Ant.move_eq] at hlen
    simp [exAntFinder, mkAnt, Shared.init] at hlen

theorem runAntOps_len : ∀ (ops : List AntOp) (t : AntTrack),
    (runAntOps t ops).a.pathHistory.length + t.a.distanceTravelled =
      (runAntOps t ops).a.distanceTravelled + t.a.pathHistory.length +
        (ops.filter AntOp.isDropGoal).length := by
  intro ops
  induction ops with
  | nil =>
    intro t
    simp [runAntOps]
    omega
  | cons op rest ih =>
    intro t
    have hstep : runAntOps t (op :: rest) = runAntOps (applyAntOp t op) rest := by
      simp [runAntOps]
    rw [hstep]
    have h2 := ih (applyAntOp t op)
    cases op <;>
      simp only [applyAntOp, Ant.move_eq, Ant.moveToPoint_eq, Ant.turnToPoint_eq,
        Ant.setModes, Ant.dropGoalMicroDot, List.length_append, List.length_cons,
        List.length_nil, AntOp.isDropGoal, List.filter_cons] at h2 ⊢ <;>
      simp at h2 ⊢ <;>
      omega

/-- C8 (amended): over any sequence of the primitive ant operations the
source ever performs, an ant created by Ant.__init__ keeps its path
history length equal to its step counter plus the number of
dropGoalMicroDot calls made so far -- dropGoalMicroDot appends a dot
without counting a step, so the plain equality of history length and step
count fails exactly on the discoverer. -/
theorem c8_path_length_vs_steps (ops : List AntOp) (x y : ℝ) (id : ℕ)
    (g1 g2 : List MicroDot) :
    (runAntOps ⟨mkAnt x y id, g1, g2⟩ ops).a.pathHistory.length =
      (runAntOps ⟨mkAnt x y id, g1, g2⟩ ops).a.distanceTravelled +
        (ops.filter AntOp.isDropGoal).length := by
  have h := runAntOps_len ops ⟨mkAnt x y id, g1, g2⟩
  have h0 : (mkAnt x y id).pathHistory.length = 0 := rfl
  have h1 : (mkAnt x y id).distanceTravelled = 0 := rfl
  dsimp only at h
  rw [h0, h1] at h
  omega

/-- C8 counterexample: the invariant as claimed -- path history length
always equals the step count -- fails right after a dropGoalMicroDot
call: the fresh ant has one recorded dot but zero steps. -/
theorem c8_counterexample :
    (runAntOps ⟨mkAnt 0 0 1, [], []⟩ [.dropGoalOp]).a.pathHistory.length = 1 ∧
    (runAntOps ⟨mkAnt 0 0 1, [], []⟩ [.dropGoalOp]).a.distanceTravelled = 0 ∧
    (1 : ℕ) ≠ 0 := by
  refine ⟨?_, ?_, by norm_num⟩ <;>
    simp [runAntOps, applyAntOp, Ant.dropGoalMicroDot, mkAnt]

/-- C4 counterexample: the claim that at most one publish ever succeeds
relies on the found-flag test and the found-flag assignment being
mutually exclusive with each other, but the source takes the lock only
around the positions-dictionary appends, never around these statements.
At statement granularity the schedule test, test, set, set, publish,
publish lets both threads read found == 0 and both publish. -/
theorem c4_counterexample :
    (raceRun raceInit [(0, .test), (1, .test), (0, .setFound), (1, .setFound),
      (0, .publish), (1, .publish)]).published 0 = true ∧
    (raceRun raceInit [(0, .test), (1, .test), (0, .setFound), (1, .setFound),
      (0, .publish), (1, .publish)]).published 1 = true := by
  constructor <;> rfl

theorem huntingScan_flags (dots : List MicroDot) : ∀ a : Ant,
    (huntingScan a dots).1.hasIceMode = a.hasIceMode ∧
    (huntingScan a dots).1.iceFinder = a.iceFinder ∧
    (huntingScan a dots).1.obtainingIceMode = a.obtainingIceMode ∧
    (huntingScan a dots).1.discoveredIceMode = a.discoveredIceMode ∧
    (huntingScan a dots).1.onGoalPathToIceMode = a.onGoalPathToIceMode ∧
    (huntingScan a dots).1.goingHomeWithIceMode = a.goingHomeWithIceMode ∧
    (huntingScan a dots).1.goingHomeWithoutIceMode = a.goingHomeWithoutIceMode ∧
    (huntingScan a dots).1.isHomeMode = a.isHomeMode ∧
    ((huntingScan a dots).1.huntingForIceOffPathMode = a.huntingForIceOffPathMode ∨
      (huntingScan a dots).1.huntingForIceOffPathMode = 1) := by
  induction dots with
  | nil =>
    intro a
    simp [huntingScan]
  | cons d rest ih =>
    intro a
    rw [huntingScan]
    by_cases hcl : hypot (a.xPosition - d.xPosition) (a.yPosition - d.yPosition) ≤ 2
    · rw [if_pos hcl]
      exact ⟨rfl, rfl, rfl, rfl, rfl, rfl, rfl, rfl, Or.inl rfl⟩
    · rw [if_neg hcl]
      obtain ⟨k1, k2, k3, k4, k5, k6, k7, k8, k9⟩ := ih { a with huntingForIceOffPathMode := 1 }
      exact ⟨k1, k2, k3, k4, k5, k6, k7, k8, Or.inr (k9.elim (fun h => h) (fun h => h))⟩

theorem turnToPoint_flags (a : Ant) (x y : ℝ) :
    (a.turnToPoint x y).huntingForIceOffPathMode = a.huntingForIceOffPathMode ∧
    (a.turnToPoint x y).onGoalPathToIceMode = a.onGoalPathToIceMode ∧
    (a.turnToPoint x y).discoveredIceMode = a.discoveredIceMode ∧
    (a.turnToPoint x y).obtainingIceMode = a.obtainingIceMode ∧
    (a.turnToPoint x y).goingHomeWithIceMode = a.goingHomeWithIceMode ∧
    (a.turnToPoint x y).goingHomeWithoutIceMode = a.goingHomeWithoutIceMode ∧
    (a.turnToPoint x y).isHomeMode = a.isHomeMode ∧
    (a.turnToPoint x y).hasIceMode = a.hasIceMode ∧
    (a.turnToPoint x y).iceFinder = a.iceFinder := by
  rw [Ant.turnToPoint_eq]
  exact ⟨rfl, rfl, rfl, rfl, rfl, rfl, rfl, rfl, rfl⟩

theorem moveToPoint_flags (a : Ant) (x y : ℝ) :
    (a.moveToPoint x y).huntingForIceOffPathMode = a.huntingForIceOffPathMode ∧
    (a.moveToPoint x y).onGoalPathToIceMode = a.onGoalPathToIceMode ∧
    (a.moveToPoint x y).discoveredIceMode = a.discoveredIceMode ∧
    (a.moveToPoint x y).obtainingIceMode = a.obtainingIceMode ∧
    (a.moveToPoint x y).goingHomeWithIceMode = a.goingHomeWithIceMode ∧
    (a.moveToPoint x y).goingHomeWithoutIceMode = a.goingHomeWithoutIceMode ∧
    (a.moveToPoint x y).isHomeMode = a.isHomeMode ∧
    (a.moveToPoint x y).hasIceMode = a.hasIceMode ∧
    (a.moveToPoint x y).iceFinder = a.iceFinder := by
  rw [Ant.moveToPoint_eq]
  exact ⟨rfl, rfl, rfl, rfl, rfl, rfl, rfl, rfl, rfl⟩

theorem walkLoop_flags (l : List MicroDot) : ∀ (fuel dot : ℕ) (a : Ant),
    (walkLoop l fuel dot a).hasIceMode = a.hasIceMode ∧
    (walkLoop l fuel dot a).iceFinder = a.iceFinder ∧
    ((walkLoop l fuel dot a).huntingForIceOffPathMode = a.huntingForIceOffPathMode ∨
      (walkLoop l fuel dot a).huntingForIceOffPathMode = 0) ∧
    ((walkLoop l fuel dot a).obtainingIceMode = a.obtainingIceMode ∨
      (walkLoop l fuel dot a).obtainingIceMode = 0) ∧
    ((walkLoop l fuel dot a).discoveredIceMode = a.discoveredIceMode ∨
      (walkLoop l fuel dot a).discoveredIceMode = 0) ∧
    ((walkLoop l fuel dot a).onGoalPathToIceMode = a.onGoalPathToIceMode ∨
      (walkLoop l fuel dot a).onGoalPathToIceMode = 0) ∧
    ((walkLoop l fuel dot a).goingHomeWithIceMode = a.goingHomeWithIceMode ∨
      (walkLoop l fuel dot a).goingHomeWithIceMode = 0) := by
  intro fuel
  induction fuel with
  | zero =>
    intro dot a
    rw [walkLoop]
    exact ⟨rfl, rfl, Or.inl rfl, Or.inl rfl, Or.inl rfl, Or.inl rfl, Or.inl rfl⟩
  | succ fuel ih =>
    intro dot a
    rw [walkLoop]
    by_cases hd : dot < l.length
    · rw [dif_pos hd]
      by_cases hmatch : a.xPosition = (l.get ⟨dot, hd⟩).xPosition ∧
          a.yPosition = (l.get ⟨dot, hd⟩).yPosition
      · rw [if_pos hmatch]
        by_cases h2 : dot + 1 < l.length
        · rw [dif_pos h2]
          obtain ⟨k1, k2, k3, k4, k5, k6, k7⟩ := ih (dot + 1)
            (a.moveToPoint (l.get ⟨dot + 1, h2⟩).xPosition (l.get ⟨dot + 1, h2⟩).yPosition)
          obtain ⟨m1, m2, m3, m4, m5, m6, m7, m8, m9⟩ :=
            moveToPoint_flags a (l.get ⟨dot + 1, h2⟩).xPosition (l.get ⟨dot + 1, h2⟩).yPosition
          refine ⟨k1.trans m8, k2.trans m9, ?_, ?_, ?_, ?_, ?_⟩
          · exact k3.elim (fun h => Or.inl (h.trans m1)) Or.inr
          · exact k4.elim (fun h => Or.inl (h.trans m4)) Or.inr
          · exact k5.elim (fun h => Or.inl (h.trans m3)) Or.inr
          · exact k6.elim (fun h => Or.inl (h.trans m2)) Or.inr
          · exact k7.elim (fun h => Or.inl (h.trans m5)) Or.inr
        · rw [dif_neg h2]
          obtain ⟨m1, m2, m3, m4, m5, m6, m7, m8, m9⟩ :=
            moveToPoint_flags a Lander.xPosition Lander.yPosition
          exact ⟨m8, m9, Or.inr rfl, Or.inr rfl, Or.inr rfl, Or.inr rfl, Or.inr rfl⟩
      · rw [if_neg hmatch]
        exact ih (dot + 1) a
    · rw [dif_neg hd]
      exact ⟨rfl, rfl, Or.inl rfl, Or.inl rfl, Or.inl rfl, Or.inl rfl, Or.inl rfl⟩

theorem goingHome_flags (a : Ant) (gh : List MicroDot) :
    (a.goingHome gh).1.hasIceMode = a.hasIceMode ∧
    (a.goingHome gh).1.iceFinder = a.iceFinder ∧
    ((a.goingHome gh).1.huntingForIceOffPathMode = a.huntingForIceOffPathMode ∨
      (a.goingHome gh).1.huntingForIceOffPathMode = 0) ∧
    ((a.goingHome gh).1.obtainingIceMode = a.obtainingIceMode ∨
      (a.goingHome gh).1.obtainingIceMode = 0) ∧
    ((a.goingHome gh).1.discoveredIceMode = a.discoveredIceMode ∨
      (a.goingHome gh).1.discoveredIceMode = 0) ∧
    ((a.goingHome gh).1.onGoalPathToIceMode = a.onGoalPathToIceMode ∨
      (a.goingHome gh).1.onGoalPathToIceMode = 0) ∧
    ((a.goingHome gh).1.goingHomeWithIceMode = a.goingHomeWithIceMode ∨
      (a.goingHome gh).1.goingHomeWithIceMode = 0) := by
  rw [Ant.goingHome]
  by_cases hice : a.hasIceMode = 0
  · rw [if_pos hice]
    by_cases hrp : a.returnPath = []
    · rw [if_pos hrp]
      by_cases hlen : 1 <
          (a.pathHistory.reverse ++ [(⟨Lander.xPosition, Lander.yPosition⟩ : MicroDot)]).length
      · rw [dif_pos hlen]
        obtain ⟨k1, k2, k3, k4, k5, k6, k7⟩ := walkLoop_flags _ _ 0
          (Ant.turnToPoint
            { a with returnPath :=
              a.pathHistory.reverse ++ [⟨Lander.xPosition, Lander.yPosition⟩] }
            ((a.pathHistory.reverse ++
                [(⟨Lander.xPosition, Lander.yPosition⟩ : MicroDot)]).get ⟨1, hlen⟩).xPosition
            ((a.pathHistory.reverse ++
                [(⟨Lander.xPosition, Lander.yPosition⟩ : MicroDot)]).get ⟨1, hlen⟩).yPosition)
        obtain ⟨t1, t2, t3, t4, t5, t6, t7, t8, t9⟩ := turnToPoint_flags
          { a with returnPath := a.pathHistory.reverse ++ [⟨Lander.xPosition, Lander.yPosition⟩] }
          ((a.pathHistory.reverse ++
              [(⟨Lander.xPosition, Lander.yPosition⟩ : MicroDot)]).get ⟨1, hlen⟩).xPosition
          ((a.pathHistory.reverse ++
              [(⟨Lander.xPosition, Lander.yPosition⟩ : MicroDot)]).get ⟨1, hlen⟩).yPosition
        refine ⟨k1.trans t8, k2.trans t9, ?_, ?_, ?_, ?_, ?_⟩
        · exact k3.elim (fun h => Or.inl (h.trans t1)) Or.inr
        · exact k4.elim (fun h => Or.inl (h.trans t4)) Or.inr
        · exact k5.elim (fun h => Or.inl (h.trans t3)) Or.inr
        · exact k6.elim (fun h => Or.inl (h.trans t2)) Or.inr
        · exact k7.elim (fun h => Or.inl (h.trans t5)) Or.inr
      · rw [dif_neg hlen]
        exact ⟨rfl, rfl, Or.inl rfl, Or.inl rfl, Or.inl rfl, Or.inl rfl, Or.inl rfl⟩
    · rw [if_neg hrp]
      exact walkLoop_flags _ _ 0 a
  · rw [if_neg hice]
    exact walkLoop_flags _ _ 0 a

theorem move_flags (a : Ant) (c : ℝ) :
    (a.move c).huntingForIceOffPathMode = a.huntingForIceOffPathMode ∧
    (a.move c).onGoalPathToIceMode = a.onGoalPathToIceMode ∧
    (a.move c).discoveredIceMode = a.discoveredIceMode ∧
    (a.move c).obtainingIceMode = a.obtainingIceMode ∧
    (a.move c).goingHomeWithIceMode = a.goingHomeWithIceMode ∧
    (a.move c).goingHomeWithoutIceMode = a.goingHomeWithoutIceMode ∧
    (a.move c).isHomeMode = a.isHomeMode ∧
    (a.move c).hasIceMode = a.hasIceMode ∧
    (a.move c).iceFinder = a.iceFinder := by
  rw [Ant.move_eq]
  exact ⟨rfl, rfl, rfl, rfl, rfl, rfl, rfl, rfl, rfl⟩

theorem BlockSpec_refl (sh : Shared) (a : Ant) (lh : List MicroDot) (f : PassFlow)
    (hpre : BlockPre sh a) : BlockSpec sh a ⟨sh, a, lh, f⟩ := by
  obtain ⟨h1, h2, h3, h4⟩ := hpre
  exact ⟨h1, rfl, fun h => ⟨h, rfl⟩, fun h hz => Or.inl ⟨h, hz⟩, h2, h4⟩

theorem BlockSpec_pre (sh : Shared) (a : Ant) (r : Res) (hs : BlockSpec sh a r)
    (hpre : BlockPre sh a) : BlockPre r.sh r.a := by
  obtain ⟨s1, s2, s3, s4, s5, s6⟩ := hs
  obtain ⟨p1, p2, p3, p4⟩ := hpre
  refine ⟨s1, s5, ?_, s6⟩
  intro hr0
  rcases p4 with h0 | h1
  · rcases s4 h0 (p3 h0) with ⟨-, hz⟩ | ⟨hf1, -⟩
    · exact hz
    · omega
  · obtain ⟨hf1, -⟩ := s3 h1
    omega

theorem BlockSpec_trans (sh : Shared) (a : Ant) (r1 r2 : Res)
    (h1 : BlockSpec sh a r1) (h2 : BlockSpec r1.sh r1.a r2) : BlockSpec sh a r2 := by
  obtain ⟨a1, q1, f1, z1, o1, b1⟩ := h1
  obtain ⟨a2, q2, f2, z2, o2, b2⟩ := h2
  refine ⟨a2, by omega, ?_, ?_, o2, b2⟩
  · intro hf
    obtain ⟨hr1, hfi1⟩ := f1 hf
    obtain ⟨hr2, hfi2⟩ := f2 hr1
    exact ⟨hr2, hfi2.trans hfi1⟩
  · intro h0 hz
    rcases z1 h0 hz with ⟨hr0, hz1⟩ | ⟨hr1, hfi⟩
    · exact z2 hr0 hz1
    · obtain ⟨hr2, hfi2⟩ := f2 hr1
      exact Or.inr ⟨hr2, hfi2.trans hfi⟩

theorem Res.andThen_spec (sh : Shared) (a : Ant) (r : Res)
    (f : Shared → Ant → List MicroDot → Res) (hpre : BlockPre sh a)
    (hr : BlockSpec sh a r)
    (hf : ∀ sh2 a2 lh2, BlockPre sh2 a2 → BlockSpec sh2 a2 (f sh2 a2 lh2)) :
    BlockSpec sh a (r.andThen f) := by
  rcases hflow : r.flow with _ | _ | e
  · have heq : r.andThen f = f r.sh r.a r.lh := by
      rw [Res.andThen, hflow]
    rw [heq]
    exact BlockSpec_trans sh a r _ hr (hf _ _ _ (BlockSpec_pre sh a r hr hpre))
  · have heq : r.andThen f = r := by
      rw [Res.andThen, hflow]
    rw [heq]
    exact hr
  · have heq : r.andThen f = r := by
      rw [Res.andThen, hflow]
    rw [heq]
    exact hr

theorem huntingBlock_spec (c : ℝ) (sh : Shared) (a : Ant) (lh : List MicroDot)
    (hpre : BlockPre sh a) : BlockSpec sh a (huntingBlock c sh a lh) := by
  obtain ⟨hAI, hOG, hFZ, h01⟩ := hpre
  rw [huntingBlock]
  by_cases hhunt : a.huntingForIceOffPathMode = 1
  case neg =>
    rw [if_neg hhunt]
    exact BlockSpec_refl sh a lh _ ⟨hAI, hOG, hFZ, h01⟩
  rw [if_pos hhunt]
  by_cases hin : hypot ((a.move c).xPosition - sh.ice.xPosition)
      ((a.move c).yPosition - sh.ice.yPosition) ≤ (sh.ice.radius : ℝ) + 10
  · rw [if_pos hin]
    by_cases hfound : sh.ice.found = 0
    · rw [if_pos hfound]
      have hz := hFZ hfound
      refine ⟨⟨fun h => ?_, fun h => ?_, fun h => ?_⟩, ?_, fun h => ?_,
        fun h0 hz0 => Or.inr ⟨rfl, rfl⟩, rfl, Or.inr rfl⟩
      · have h2 : a.hasIceMode = 1 := h
        have h0 := hz.2.1
        omega
      · exact ⟨rfl, rfl, hz.2.1⟩
      · have h2 : (0 : ℕ) = 1 := h
        omega
      · rfl
      · omega
    · rw [if_neg hfound]
      have hfound1 : sh.ice.found = 1 := by
        rcases h01 with h | h
        · exact absurd h hfound
        · exact h
      refine ⟨⟨fun h => ?_, fun h => ?_, fun h => ?_⟩, rfl, fun h => ⟨h, rfl⟩,
        fun h0 _ => absurd h0 hfound, hOG, h01⟩
      · have h2 : a.hasIceMode = 1 := h
        have := (hAI.1 h2).1
        omega
      · have h2 : a.iceFinder = 1 := h
        have := (hAI.2.1 h2).1
        omega
      · have h2 : a.goingHomeWithIceMode = 1 := h
        exact hAI.2.2 h2
  · rw [if_neg hin]
    rcases hscan : huntingScan (a.move c) sh.goalMicroDotsToIce with ⟨a2, e⟩
    obtain ⟨s1, s2, s3, s4, s5, s6, s7, s8, s9⟩ :=
      huntingScan_flags sh.goalMicroDotsToIce (a.move c)
    rw [hscan] at s1 s2 s3 s4 s5 s6 s7 s8 s9
    obtain ⟨m1, m2, m3, m4, m5, m6, m7, m8, m9⟩ := move_flags a c
    have t1 : a2.hasIceMode = a.hasIceMode := s1.trans m8
    have t2 : a2.iceFinder = a.iceFinder := s2.trans m9
    have t3 : a2.obtainingIceMode = a.obtainingIceMode := s3.trans m4
    have t4 : a2.discoveredIceMode = a.discoveredIceMode := s4.trans m3
    have t5 : a2.onGoalPathToIceMode = a.onGoalPathToIceMode := s5.trans m2
    have t6 : a2.goingHomeWithIceMode = a.goingHomeWithIceMode := s6.trans m5
    have hAI2 : AntInv a2 := by
      refine ⟨fun h => ?_, fun h => ?_, fun h => ?_⟩
      · rw [t1] at h
        have := (hAI.1 h).1
        omega
      · rw [t2] at h
        have := (hAI.2.1 h).1
        omega
      · rw [t6] at h
        rw [t1]
        exact hAI.2.2 h
    have hq : sh.ice.quantity + (if a2.hasIceMode = 1 then (1 : ℤ) else 0) =
        sh.ice.quantity + (if a.hasIceMode = 1 then (1 : ℤ) else 0) := by
      rw [t1]
    have hz2 : sh.ice.found = 0 → FoundZero a2 := by
      intro h0
      obtain ⟨z1, z2, z3, z4⟩ := hFZ h0
      exact ⟨t2.trans z1, t1.trans z2, t3.trans z3, t4.trans z4⟩
    cases e with
    | none =>
      exact ⟨hAI2, hq, fun h => ⟨h, t2⟩, fun h0 hz0 => Or.inl ⟨h0, hz2 h0⟩,
        t5.trans hOG, h01⟩
    | some err =>
      exact ⟨hAI2, hq, fun h => ⟨h, t2⟩, fun h0 hz0 => Or.inl ⟨h0, hz2 h0⟩,
        t5.trans hOG, h01⟩

theorem BlockSpec_same_ice (sh : Shared) (a : Ant) (sh' : Shared) (a' : Ant)
    (lh : List MicroDot) (flow : PassFlow)
    (hice : sh'.ice = sh.ice)
    (hpre : BlockPre sh a)
    (h1 : a'.hasIceMode = a.hasIceMode) (h2 : a'.iceFinder = a.iceFinder)
    (hAI2 : AntInv a') (hOG2 : a'.onGoalPathToIceMode = 0)
    (hFZ2 : sh.ice.found = 0 → FoundZero a') :
    BlockSpec sh a ⟨sh', a', lh, flow⟩ := by
  obtain ⟨hAI, hOG, hFZ, h01⟩ := hpre
  refine ⟨hAI2, ?_, fun h => ⟨?_, h2⟩, fun h0 hz => Or.inl ⟨?_, hFZ2 h0⟩, hOG2, ?_⟩
  · show sh'.ice.quantity + _ = _
    rw [hice, h1]
  · show sh'.ice.found = 1
    rw [hice]
    exact h
  · show sh'.ice.found = 0
    rw [hice]
    exact ‹sh.ice.found = 0›
  · show sh'.ice.found = 0 ∨ sh'.ice.found = 1
    rw [hice]
    exact h01

theorem BlockSpec_obtain (sh sh' : Shared) (a a' : Ant) (lh : List MicroDot) (flow : PassFlow)
    (hicef : sh'.ice.found = sh.ice.found)
    (hq : sh'.ice.quantity = sh.ice.quantity - 1)
    (hpre : BlockPre sh a) (hobt : a.obtainingIceMode = 1)
    (h1 : a'.hasIceMode = 1) (h2 : a'.iceFinder = a.iceFinder)
    (hAI2 : AntInv a') (hOG2 : a'.onGoalPathToIceMode = 0) :
    BlockSpec sh a ⟨sh', a', lh, flow⟩ := by
  obtain ⟨hAI, hOG, hFZ, h01⟩ := hpre
  have hprev : ¬ a.hasIceMode = 1 := by
    intro h
    have := (hAI.1 h).2.1
    omega
  refine ⟨hAI2, ?_, fun h => ⟨by rw [hicef]; exact h, h2⟩, fun h0 hz => ?_, hOG2, ?_⟩
  · show sh'.ice.quantity + _ = _
    rw [hq, h1, if_pos rfl, if_neg hprev]
    ring
  · exfalso
    have := hz.2.2.1
    omega
  · show sh'.ice.found = 0 ∨ sh'.ice.found = 1
    rw [hicef]
    exact h01

theorem discoveredBlock_spec (sh : Shared) (a : Ant) (lh : List MicroDot)
    (hpre : BlockPre sh a) : BlockSpec sh a (discoveredBlock sh a lh) := by
  obtain ⟨hAI, hOG, hFZ, h01⟩ := hpre
  rw [discoveredBlock]
  by_cases hd : a.discoveredIceMode = 1
  case neg =>
    rw [if_neg hd]
    exact BlockSpec_refl sh a lh _ ⟨hAI, hOG, hFZ, h01⟩
  rw [if_pos hd]
  have hfound1 : sh.ice.found = 1 := by
    rcases h01 with h0 | h1
    · have := (hFZ h0).2.2.2
      omega
    · exact h1
  by_cases hlen : 2 ≤ a.pathHistory.length
  · rw [dif_pos hlen]
    obtain ⟨t1, t2, t3, t4, t5, t6, t7, t8, t9⟩ := turnToPoint_flags a
      (a.pathHistory.get ⟨a.pathHistory.length - 2, by omega⟩).xPosition
      (a.pathHistory.get ⟨a.pathHistory.length - 2, by omega⟩).yPosition
    refine BlockSpec_same_ice sh a _ _ _ _ rfl ⟨hAI, hOG, hFZ, h01⟩ t8 t9 ?_ rfl
      (fun h0 => absurd h0 (by omega))
    refine ⟨fun h => ?_, fun h => ?_, fun h => ?_⟩
    · have h2 : a.hasIceMode = 1 := t8.symm.trans h
      have := (hAI.1 h2).2.2.1
      omega
    · have h2 : a.iceFinder = 1 := t9.symm.trans h
      exact ⟨rfl, rfl, t8.trans (hAI.2.1 h2).2.2⟩
    · have h2 : (0 : ℕ) = 1 := h
      omega
  · rw [dif_neg hlen]
    exact BlockSpec_refl sh a lh _ ⟨hAI, hOG, hFZ, h01⟩

theorem onGoalPathBlock_spec (sh : Shared) (a : Ant) (lh : List MicroDot)
    (hpre : BlockPre sh a) : BlockSpec sh a (onGoalPathBlock sh a lh) := by
  obtain ⟨hAI, hOG, hFZ, h01⟩ := hpre
  rw [onGoalPathBlock, if_neg (show ¬ a.onGoalPathToIceMode = 1 by omega)]
  exact BlockSpec_refl sh a lh _ ⟨hAI, hOG, hFZ, h01⟩

theorem turn_move_chain_flags (b : Ant) (px py : ℝ) :
    ((b.turnToPoint px py).moveToPoint px py).hasIceMode = b.hasIceMode ∧
    ((b.turnToPoint px py).moveToPoint px py).iceFinder = b.iceFinder := by
  obtain ⟨m1, m2, m3, m4, m5, m6, m7, m8, m9⟩ := moveToPoint_flags (b.turnToPoint px py) px py
  obtain ⟨t1, t2, t3, t4, t5, t6, t7, t8, t9⟩ := turnToPoint_flags b px py
  exact ⟨m8.trans t8, m9.trans t9⟩

theorem obtainingBlock_spec (sh : Shared) (a : Ant) (lh : List MicroDot)
    (hpre : BlockPre sh a) : BlockSpec sh a (obtainingBlock sh a lh) := by
  obtain ⟨hAI, hOG, hFZ, h01⟩ := hpre
  rw [obtainingBlock]
  by_cases hobt : a.obtainingIceMode = 1
  case neg =>
    rw [if_neg hobt]
    exact BlockSpec_refl sh a lh _ ⟨hAI, hOG, hFZ, h01⟩
  rw [if_pos hobt]
  have hfind : ¬ a.iceFinder = 1 := by
    intro h
    have := (hAI.2.1 h).2.1
    omega
  by_cases hlen1 : 1 < lh.length
  · rw [dif_pos hlen1]
    obtain ⟨c1, c2⟩ := turn_move_chain_flags
      ({ { (a.turnToPoint 20 (-30)).moveToPoint 20 (-30) with hasIceMode := 1 }
          with obtainingIceMode := 0 })
      (lh.get ⟨1, hlen1⟩).xPosition (lh.get ⟨1, hlen1⟩).yPosition
    obtain ⟨d1, d2⟩ := turn_move_chain_flags a 20 (-30)
    refine BlockSpec_obtain sh _ a _ lh _ rfl rfl ⟨hAI, hOG, hFZ, h01⟩ hobt c1 (c2.trans d2)
      ?_ rfl
    refine ⟨fun h => ⟨rfl, rfl, rfl, fun hf => ?_⟩, fun hf => ?_, fun h => c1⟩
    · exact hfind ((c2.trans d2).symm.trans hf)
    · exact absurd ((c2.trans d2).symm.trans hf) hfind
  · rw [dif_neg hlen1]
    obtain ⟨d1, d2⟩ := turn_move_chain_flags a 20 (-30)
    refine BlockSpec_obtain sh _ a _ lh _ rfl rfl ⟨hAI, hOG, hFZ, h01⟩ hobt rfl d2 ?_ rfl
    refine ⟨fun h => ⟨rfl, rfl, rfl, fun hf => ?_⟩, fun hf => ?_, fun h => rfl⟩
    · exact hfind (d2.symm.trans hf)
    · exact absurd (d2.symm.trans hf) hfind

theorem goingHomeWithIceBlock_spec (sh : Shared) (a : Ant) (lh : List MicroDot)
    (hpre : BlockPre sh a) : BlockSpec sh a (goingHomeWithIceBlock sh a lh) := by
  obtain ⟨hAI, hOG, hFZ, h01⟩ := hpre
  rw [goingHomeWithIceBlock]
  by_cases hg : a.goingHomeWithIceMode = 1
  case neg =>
    rw [if_neg hg]
    exact BlockSpec_refl sh a lh _ ⟨hAI, hOG, hFZ, h01⟩
  rw [if_pos hg]
  by_cases hne : lh ≠ []
  · rw [dif_pos hne]
    by_cases hmatch : a.xPosition = (lh.getLast hne).xPosition ∧
        a.yPosition = (lh.getLast hne).yPosition
    · rw [if_pos hmatch]
      refine BlockSpec_same_ice sh a _ _ _ _ rfl ⟨hAI, hOG, hFZ, h01⟩ rfl rfl ?_ rfl ?_
      · refine ⟨fun h => ?_, fun h => ?_, fun h => ?_⟩
        · have h2 : a.hasIceMode = 1 := h
          exact ⟨rfl, rfl, rfl, (hAI.1 h2).2.2.2⟩
        · have h2 : a.iceFinder = 1 := h
          exact ⟨rfl, rfl, (hAI.2.1 h2).2.2⟩
        · have h2 : (0 : ℕ) = 1 := h
          omega
      · intro h0
        obtain ⟨z1, z2, z3, z4⟩ := hFZ h0
        exact ⟨z1, z2, rfl, rfl⟩
    · rw [if_neg hmatch]
      by_cases hc : (a.xPosition = (lh.get ⟨0, by simpa [List.length_pos] using hne⟩).xPosition ∧
          a.yPosition = (lh.get ⟨0, by simpa [List.length_pos] using hne⟩).yPosition) ∧
          a.xPosition ≠ Lander.xPosition ∧ a.yPosition ≠ Lander.yPosition
      · rw [if_pos hc]
        by_cases h1l : 1 < lh.length
        · rw [if_pos h1l]
          exact BlockSpec_refl sh a lh _ ⟨hAI, hOG, hFZ, h01⟩
        · rw [if_neg h1l]
          exact BlockSpec_refl sh a lh _ ⟨hAI, hOG, hFZ, h01⟩
      · rw [if_neg hc]
        exact BlockSpec_refl sh a lh _ ⟨hAI, hOG, hFZ, h01⟩
  · rw [dif_neg hne]
    exact BlockSpec_refl sh a lh _ ⟨hAI, hOG, hFZ, h01⟩

theorem goingHomeWithoutIceBlock_spec (sh : Shared) (a : Ant) (lh : List MicroDot)
    (hpre : BlockPre sh a) : BlockSpec sh a (goingHomeWithoutIceBlock sh a lh) := by
  obtain ⟨hAI, hOG, hFZ, h01⟩ := hpre
  rw [goingHomeWithoutIceBlock]
  by_cases hg : a.goingHomeWithoutIceMode = 1
  case neg =>
    rw [if_neg hg]
    exact BlockSpec_refl sh a lh _ ⟨hAI, hOG, hFZ, h01⟩
  rw [if_pos hg]
  rcases hgh : a.goingHome sh.goalMicroDotsToHome with ⟨a2, e⟩
  obtain ⟨g1, g2, g3, g4, g5, g6, g7⟩ := goingHome_flags a sh.goalMicroDotsToHome
  rw [hgh] at g1 g2 g3 g4 g5 g6 g7
  have hAI2 : AntInv a2 := by
    refine ⟨fun h => ?_, fun h => ?_, fun h => ?_⟩
    · rw [g1] at h
      obtain ⟨w1, w2, w3, w4⟩ := hAI.1 h
      refine ⟨?_, ?_, ?_, ?_⟩
      · rcases g3 with gg | gg
        · exact gg.trans w1
        · exact gg
      · rcases g4 with gg | gg
        · exact gg.trans w2
        · exact gg
      · rcases g5 with gg | gg
        · exact gg.trans w3
        · exact gg
      · rw [g2]
        exact w4
    · rw [g2] at h
      obtain ⟨w1, w2, w3⟩ := hAI.2.1 h
      refine ⟨?_, ?_, g1.trans w3⟩
      · rcases g3 with gg | gg
        · exact gg.trans w1
        · exact gg
      · rcases g4 with gg | gg
        · exact gg.trans w2
        · exact gg
    · rcases g7 with gg | gg
      · rw [gg] at h
        exact g1.trans (hAI.2.2 h)
      · rw [gg] at h
        omega
  have hOG2 : a2.onGoalPathToIceMode = 0 := by
    rcases g6 with gg | gg
    · exact gg.trans hOG
    · exact gg
  have hFZ2 : sh.ice.found = 0 → FoundZero a2 := by
    intro h0
    obtain ⟨z1, z2, z3, z4⟩ := hFZ h0
    refine ⟨g2.trans z1, g1.trans z2, ?_, ?_⟩
    · rcases g4 with gg | gg
      · exact gg.trans z3
      · exact gg
    · rcases g5 with gg | gg
      · exact gg.trans z4
      · exact gg
  cases e with
  | none =>
    exact BlockSpec_same_ice sh a sh a2 lh _ rfl ⟨hAI, hOG, hFZ, h01⟩ g1 g2 hAI2 hOG2 hFZ2
  | some err =>
    exact BlockSpec_same_ice sh a sh a2 lh _ rfl ⟨hAI, hOG, hFZ, h01⟩ g1 g2 hAI2 hOG2 hFZ2

theorem innerPass_spec (c : ℝ) (sh : Shared) (a : Ant) (lh : List MicroDot)
    (hpre : BlockPre sh a) : BlockSpec sh a (innerPass c sh a lh) := by
  rw [innerPass]
  have s1 := huntingBlock_spec c sh a lh hpre
  have s2 := Res.andThen_spec sh a _ _ hpre s1
    (fun sh2 a2 lh2 hp => discoveredBlock_spec sh2 a2 lh2 hp)
  have s3 := Res.andThen_spec sh a _ _ hpre s2
    (fun sh2 a2 lh2 hp => onGoalPathBlock_spec sh2 a2 lh2 hp)
  have s4 := Res.andThen_spec sh a _ _ hpre s3
    (fun sh2 a2 lh2 hp => obtainingBlock_spec sh2 a2 lh2 hp)
  have s5 := Res.andThen_spec sh a _ _ hpre s4
    (fun sh2 a2 lh2 hp => goingHomeWithIceBlock_spec sh2 a2 lh2 hp)
  exact Res.andThen_spec sh a _ _ hpre s5
    (fun sh2 a2 lh2 hp => goingHomeWithoutIceBlock_spec sh2 a2 lh2 hp)

theorem sum_comp_update {n : ℕ} (ants : Fin n → Ant) (i : Fin n) (a' : Ant) (g : Ant → ℤ) :
    (∑ j : Fin n, g (Function.update ants i a' j)) =
      (∑ j : Fin n, g (ants j)) - g (ants i) + g a' := by
  have hfun : ∀ j, g (Function.update ants i a' j) =
      Function.update (fun j => g (ants j)) i (g a') j := by
    intro j
    by_cases hj : j = i
    · subst hj
      simp
    · rw [Function.update_noteq hj, Function.update_noteq hj]
  rw [Finset.sum_congr rfl (fun j _ => hfun j)]
  rw [Finset.sum_update_of_mem (Finset.mem_univ i)]
  rw [← Finset.erase_eq]
  have h2 : (∑ j : Fin n, g (ants j)) =
      g (ants i) + ∑ j ∈ Finset.univ.erase i, g (ants j) :=
    (Finset.add_sum_erase _ _ (Finset.mem_univ i)).symm
  omega

theorem AntInv_congr (a b : Ant)
    (h1 : b.huntingForIceOffPathMode = a.huntingForIceOffPathMode)
    (h2 : b.obtainingIceMode = a.obtainingIceMode)
    (h3 : b.discoveredIceMode = a.discoveredIceMode)
    (h4 : b.goingHomeWithIceMode = a.goingHomeWithIceMode)
    (h5 : b.hasIceMode = a.hasIceMode)
    (h6 : b.iceFinder = a.iceFinder)
    (hA : AntInv a) : AntInv b := by
  refine ⟨fun h => ?_, fun h => ?_, fun h => ?_⟩
  · rw [h5] at h
    obtain ⟨w1, w2, w3, w4⟩ := hA.1 h
    exact ⟨h1.trans w1, h2.trans w2, h3.trans w3, by rw [h6]; exact w4⟩
  · rw [h6] at h
    obtain ⟨w1, w2, w3⟩ := hA.2.1 h
    exact ⟨h1.trans w1, h2.trans w2, h5.trans w3⟩
  · rw [h4] at h
    exact h5.trans (hA.2.2 h)

theorem FoundZero_congr (a b : Ant)
    (h2 : b.obtainingIceMode = a.obtainingIceMode)
    (h3 : b.discoveredIceMode = a.discoveredIceMode)
    (h5 : b.hasIceMode = a.hasIceMode)
    (h6 : b.iceFinder = a.iceFinder)
    (hz : FoundZero a) : FoundZero b :=
  ⟨h6.trans hz.1, h5.trans hz.2.1, h2.trans hz.2.2.1, h3.trans hz.2.2.2⟩

theorem goingHome_preserves (a : Ant) (gh : List MicroDot) (a2 : Ant) (e : Option PyError)
    (hgh : a.goingHome gh = (a2, e))
    (hAI : AntInv a) (hOG : a.onGoalPathToIceMode = 0) :
    AntInv a2 ∧ a2.hasIceMode = a.hasIceMode ∧ a2.iceFinder = a.iceFinder ∧
    a2.onGoalPathToIceMode = 0 ∧ (FoundZero a → FoundZero a2) := by
  obtain ⟨g1, g2, g3, g4, g5, g6, g7⟩ := goingHome_flags a gh
  rw [hgh] at g1 g2 g3 g4 g5 g6 g7
  have hAI2 : AntInv a2 := by
    refine ⟨fun h => ?_, fun h => ?_, fun h => ?_⟩
    · rw [g1] at h
      obtain ⟨w1, w2, w3, w4⟩ := hAI.1 h
      refine ⟨?_, ?_, ?_, by rw [g2]; exact w4⟩
      · rcases g3 with gg | gg
        · exact gg.trans w1
        · exact gg
      · rcases g4 with gg | gg
        · exact gg.trans w2
        · exact gg
      · rcases g5 with gg | gg
        · exact gg.trans w3
        · exact gg
    · rw [g2] at h
      obtain ⟨w1, w2, w3⟩ := hAI.2.1 h
      refine ⟨?_, ?_, g1.trans w3⟩
      · rcases g3 with gg | gg
        · exact gg.trans w1
        · exact gg
      · rcases g4 with gg | gg
        · exact gg.trans w2
        · exact gg
    · rcases g7 with gg | gg
      · rw [gg] at h
        exact g1.trans (hAI.2.2 h)
      · rw [gg] at h
        omega
  refine ⟨hAI2, g1, g2, ?_, ?_⟩
  · rcases g6 with gg | gg
    · exact gg.trans hOG
    · exact gg
  · intro hz
    refine ⟨g2.trans hz.1, g1.trans hz.2.1, ?_, ?_⟩
    · rcases g4 with gg | gg
      · exact gg.trans hz.2.2.1
      · exact gg
    · rcases g5 with gg | gg
      · exact gg.trans hz.2.2.2
      · exact gg

theorem simStep_inv {n : ℕ} {q0 : ℤ} {s s' : SimState n} (hstep : SimStep s s')
    (hinv : GlobalInv q0 s) : GlobalInv q0 s' := by
  obtain ⟨g1, g2, g3, g4, g5, g6⟩ := hinv
  cases hstep with
  | start i hs =>
    exact ⟨g1, g2, g3, g4, g5, g6⟩
  | outer i r c hr ht hs hc hh =>
    obtain ⟨m1, m2, m3, m4, m5, m6, m7, m8, m9⟩ :=
      move_flags { s.ants i with direction := (r : ℕ) } c
    have e1 : (outerBody r c (s.ants i)).hasIceMode = (s.ants i).hasIceMode := m8
    have e2 : (outerBody r c (s.ants i)).iceFinder = (s.ants i).iceFinder := m9
    have hsum : hasIceSum (applyOuter s i r c) =
        hasIceSum s - (if (s.ants i).hasIceMode = 1 then (1 : ℤ) else 0) +
          (if (outerBody r c (s.ants i)).hasIceMode = 1 then (1 : ℤ) else 0) :=
      sum_comp_update s.ants i (outerBody r c (s.ants i))
        (fun a => if a.hasIceMode = 1 then (1 : ℤ) else 0)
    have hind : (if (outerBody r c (s.ants i)).hasIceMode = 1 then (1 : ℤ) else 0) =
        (if (s.ants i).hasIceMode = 1 then (1 : ℤ) else 0) := by rw [e1]
    have hsumf : finderSum (applyOuter s i r c) =
        finderSum s - (if (s.ants i).iceFinder = 1 then (1 : ℤ) else 0) +
          (if (outerBody r c (s.ants i)).iceFinder = 1 then (1 : ℤ) else 0) :=
      sum_comp_update s.ants i (outerBody r c (s.ants i))
        (fun a => if a.iceFinder = 1 then (1 : ℤ) else 0)
    have hindf : (if (outerBody r c (s.ants i)).iceFinder = 1 then (1 : ℤ) else 0) =
        (if (s.ants i).iceFinder = 1 then (1 : ℤ) else 0) := by rw [e2]
    refine ⟨?_, ?_, ?_, ?_, ?_, g6⟩
    · show s.sh.ice.quantity + hasIceSum (applyOuter s i r c) = q0
      omega
    · intro j
      show AntInv (Function.update s.ants i (outerBody r c (s.ants i)) j)
      by_cases hj : j = i
      · subst hj
        rw [Function.update_same]
        exact AntInv_congr (s.ants j) _ m1 m4 m3 m5 m8 m9 (g2 j)
      · rw [Function.update_noteq hj]
        exact g2 j
    · intro h0 j
      show FoundZero (Function.update s.ants i (outerBody r c (s.ants i)) j)
      by_cases hj : j = i
      · subst hj
        rw [Function.update_same]
        exact FoundZero_congr (s.ants j) _ m4 m3 m8 m9 (g3 h0 j)
      · rw [Function.update_noteq hj]
        exact g3 h0 j
    · show finderSum (applyOuter s i r c) ≤ 1
      omega
    · intro j
      show (Function.update s.ants i (outerBody r c (s.ants i)) j).onGoalPathToIceMode = 0
      by_cases hj : j = i
      · subst hj
        rw [Function.update_same]
        exact m2.trans (g5 j)
      · rw [Function.update_noteq hj]
        exact g5 j
  | pass i c ht hs hc hd =>
    have hpre : BlockPre s.sh (s.ants i) := ⟨g2 i, g5 i, fun h0 => g3 h0 i, g6⟩
    obtain ⟨p1, p2, p3, p4, p5, p6⟩ := innerPass_spec c s.sh (s.ants i) (s.locals i) hpre
    have hsum : hasIceSum (applyPass s i c) =
        hasIceSum s - (if (s.ants i).hasIceMode = 1 then (1 : ℤ) else 0) +
          (if (innerPass c s.sh (s.ants i) (s.locals i)).a.hasIceMode = 1 then (1 : ℤ) else 0) :=
      sum_comp_update s.ants i (innerPass c s.sh (s.ants i) (s.locals i)).a
        (fun a => if a.hasIceMode = 1 then (1 : ℤ) else 0)
    have hsumf : finderSum (applyPass s i c) =
        finderSum s - (if (s.ants i).iceFinder = 1 then (1 : ℤ) else 0) +
          (if (innerPass c s.sh (s.ants i) (s.locals i)).a.iceFinder = 1 then (1 : ℤ) else 0) :=
      sum_comp_update s.ants i (innerPass c s.sh (s.ants i) (s.locals i)).a
        (fun a => if a.iceFinder = 1 then (1 : ℤ) else 0)
    have hfound0 : (innerPass c s.sh (s.ants i) (s.locals i)).sh.ice.found = 0 →
        s.sh.ice.found = 0 := by
      intro h0
      rcases g6 with f0 | f1
      · exact f0
      · obtain ⟨hf, -⟩ := p3 f1
        omega
    refine ⟨?_, ?_, ?_, ?_, ?_, p6⟩
    · show (innerPass c s.sh (s.ants i) (s.locals i)).sh.ice.quantity + _ = _
      omega
    · intro j
      show AntInv (Function.update s.ants i (innerPass c s.sh (s.ants i) (s.locals i)).a j)
      by_cases hj : j = i
      · subst hj
        rw [Function.update_same]
        exact p1
      · rw [Function.update_noteq hj]
        exact g2 j
    · intro h0 j
      have hs0 := hfound0 h0
      show FoundZero (Function.update s.ants i (innerPass c s.sh (s.ants i) (s.locals i)).a j)
      by_cases hj : j = i
      · subst hj
        rw [Function.update_same]
        rcases p4 hs0 (g3 hs0 j) with ⟨-, hz⟩ | ⟨hf1, -⟩
        · exact hz
        · have h0e : (innerPass c s.sh (s.ants j) (s.locals j)).sh.ice.found = 0 := h0
          omega
      · rw [Function.update_noteq hj]
        exact g3 hs0 j
    · show finderSum (applyPass s i c) ≤ 1
      rcases g6 with f0 | f1
      · have hz : ∀ j, (s.ants j).iceFinder = 0 := fun j => (g3 f0 j).1
        have hfs : finderSum s = 0 := by
          apply Finset.sum_eq_zero
          intro j _
          rw [hz j]
          norm_num
        have hb : (if (innerPass c s.sh (s.ants i) (s.locals i)).a.iceFinder = 1
            then (1 : ℤ) else 0) ≤ 1 := by
          split_ifs <;> norm_num
        have hzi : (if (s.ants i).iceFinder = 1 then (1 : ℤ) else 0) = 0 := by
          rw [hz i]
          norm_num
        omega
      · obtain ⟨-, hfe⟩ := p3 f1
        have hindf : (if (innerPass c s.sh (s.ants i) (s.locals i)).a.iceFinder = 1
            then (1 : ℤ) else 0) = (if (s.ants i).iceFinder = 1 then (1 : ℤ) else 0) := by
          rw [hfe]
        omega
    · intro j
      show (Function.update s.ants i (innerPass c s.sh (s.ants i) (s.locals i)).a
        j).onGoalPathToIceMode = 0
      by_cases hj : j = i
      · subst hj
        rw [Function.update_same]
        exact p5
      · rw [Function.update_noteq hj]
        exact g5 j
  | whileElse i hs hc hd =>
    rcases hgh : (s.ants i).goingHome s.sh.goalMicroDotsToHome with ⟨a2, e⟩
    obtain ⟨w1, w2, w3, w4, w5⟩ := goingHome_preserves (s.ants i) _ a2 e hgh (g2 i) (g5 i)
    have hupd : (applyWhileElse s i).ants =
        Function.update s.ants i a2 := by
      show Function.update s.ants i ((s.ants i).goingHome s.sh.goalMicroDotsToHome).1 = _
      rw [hgh]
    have hsum : hasIceSum (applyWhileElse s i) =
        hasIceSum s - (if (s.ants i).hasIceMode = 1 then (1 : ℤ) else 0) +
          (if a2.hasIceMode = 1 then (1 : ℤ) else 0) := by
      show (∑ j : Fin n, if ((applyWhileElse s i).ants j).hasIceMode = 1 then (1 : ℤ) else 0) = _
      rw [hupd]
      exact sum_comp_update s.ants i a2 (fun a => if a.hasIceMode = 1 then (1 : ℤ) else 0)
    have hsumf : finderSum (applyWhileElse s i) =
        finderSum s - (if (s.ants i).iceFinder = 1 then (1 : ℤ) else 0) +
          (if a2.iceFinder = 1 then (1 : ℤ) else 0) := by
      show (∑ j : Fin n, if ((applyWhileElse s i).ants j).iceFinder = 1 then (1 : ℤ) else 0) = _
      rw [hupd]
      exact sum_comp_update s.ants i a2 (fun a => if a.iceFinder = 1 then (1 : ℤ) else 0)
    have hind : (if a2.hasIceMode = 1 then (1 : ℤ) else 0) =
        (if (s.ants i).hasIceMode = 1 then (1 : ℤ) else 0) := by rw [w2]
    have hindf : (if a2.iceFinder = 1 then (1 : ℤ) else 0) =
        (if (s.ants i).iceFinder = 1 then (1 : ℤ) else 0) := by rw [w3]
    refine ⟨?_, ?_, ?_, ?_, ?_, g6⟩
    · show s.sh.ice.quantity + hasIceSum (applyWhileElse s i) = q0
      omega
    · intro j
      show AntInv ((applyWhileElse s i).ants j)
      rw [hupd]
      by_cases hj : j = i
      · subst hj
        rw [Function.update_same]
        exact w1
      · rw [Function.update_noteq hj]
        exact g2 j
    · intro h0 j
      show FoundZero ((applyWhileElse s i).ants j)
      rw [hupd]
      by_cases hj : j = i
      · subst hj
        rw [Function.update_same]
        exact w5 (g3 h0 j)
      · rw [Function.update_noteq hj]
        exact g3 h0 j
    · show finderSum (applyWhileElse s i) ≤ 1
      omega
    · intro j
      show ((applyWhileElse s i).ants j).onGoalPathToIceMode = 0
      rw [hupd]
      by_cases hj : j = i
      · subst hj
        rw [Function.update_same]
        exact w4
      · rw [Function.update_noteq hj]
        exact g5 j

theorem initState_inv (n : ℕ) : GlobalInv 9 (initState n) := by
  have hz : ∀ i : Fin n, (initState n).ants i = mkAnt 0 0 (i.val + 1) := fun i => rfl
  have hsum : hasIceSum (initState n) = 0 := by
    apply Finset.sum_eq_zero
    intro j _
    rw [if_neg]
    intro h
    have h2 : (0 : ℕ) = 1 := h
    omega
  have hsumf : finderSum (initState n) = 0 := by
    apply Finset.sum_eq_zero
    intro j _
    rw [if_neg]
    intro h
    have h2 : (0 : ℕ) = 1 := h
    omega
  refine ⟨?_, ?_, ?_, by omega, fun i => rfl, Or.inl rfl⟩
  · rw [hsum]
    show ((ICE_QUANTITY : ℕ) : ℤ) + 0 = 9
    norm_num [ICE_QUANTITY]
  · intro i
    refine ⟨fun h => ?_, fun h => ?_, fun h => ?_⟩ <;>
      · have h2 : (0 : ℕ) = 1 := h
        omega
  · intro h0 i
    exact ⟨rfl, rfl, rfl, rfl⟩

theorem reachable_inv (s : SimState 9) (h : Relation.ReflTransGen SimStep (initState 9) s) :
    GlobalInv 9 s := by
  induction h with
  | refl => exact initState_inv 9
  | tail hab hbc ih => exact simStep_inv hbc ih

/-- C3 (amended): if each mode-guarded block of an inner-loop pass
executes atomically -- in particular the obtaining block that sets the
holds-resource flag and decrements Ice.quantity -- then along every
interleaved execution of the nine ant threads the Resource quantity
equals its initial value 9 minus the number of agents holding ice, never
goes negative, never exceeds the initial value, and every agent in
goingHomeWithIceMode holds ice.  The source does not enforce that
atomicity: `Ice.quantity -= 1` is an unlocked read-modify-write (the
lock is only ever held around the positions appends), so at statement
granularity two obtaining agents can both read 9 and both store 8 -- two
pickups with final quantity 8, not 9 - 2 (this claim's
counterexample). -/
theorem c3_quantity_conservation (s : SimState 9) (h : Reachable (initState 9) s) :
    s.sh.ice.quantity = 9 - hasIceSum s ∧
    0 ≤ s.sh.ice.quantity ∧ s.sh.ice.quantity ≤ 9 ∧
    ∀ i, (s.ants i).goingHomeWithIceMode = 1 → (s.ants i).hasIceMode = 1 := by
  obtain ⟨g1, g2, g3, g4, g5, g6⟩ := reachable_inv s h
  have hnn : 0 ≤ hasIceSum s := by
    apply Finset.sum_nonneg
    intro j _
    split_ifs <;> norm_num
  have hub : hasIceSum s ≤ 9 := by
    calc hasIceSum s ≤ ∑ _j : Fin 9, (1 : ℤ) :=
        Finset.sum_le_sum (fun j _ => by split_ifs <;> norm_num)
      _ = 9 := by simp
  exact ⟨by omega, by omega, by omega, fun i => (g2 i).2.2⟩

/-- C3 witness: the quantity-conservation theorem at the initial state. -/
theorem c3_quantity_conservation_witness :
    (initState 9).sh.ice.quantity = 9 - hasIceSum (initState 9) ∧
    0 ≤ (initState 9).sh.ice.quantity ∧ (initState 9).sh.ice.quantity ≤ 9 ∧
    ∀ i, ((initState 9).ants i).goingHomeWithIceMode = 1 →
      ((initState 9).ants i).hasIceMode = 1 :=
  c3_quantity_conservation (initState 9) Relation.ReflTransGen.refl

/-- C3 counterexample: `Ice.quantity -= 1` is an unlocked
read-modify-write, so with two threads in the obtaining block the
statement-level schedule setHasIce, setHasIce, read, read, write, write
loses one decrement: both agents flip their holds-resource flag (two
pickups, two agents reaching the returning-with-resource state), yet the
final quantity is 8, not initialQuantity minus that count, 9 - 2. -/
theorem c3_counterexample :
    (qtyRun qtyInit [(0, .setHasIce), (1, .setHasIce), (0, .readQty), (1, .readQty),
      (0, .writeQty), (1, .writeQty)]).quantity = 8 ∧
    (qtyRun qtyInit [(0, .setHasIce), (1, .setHasIce), (0, .readQty), (1, .readQty),
      (0, .writeQty), (1, .writeQty)]).hasIce 0 = true ∧
    (qtyRun qtyInit [(0, .setHasIce), (1, .setHasIce), (0, .readQty), (1, .readQty),
      (0, .writeQty), (1, .writeQty)]).hasIce 1 = true ∧
    (8 : ℤ) ≠ 9 - 2 := by
  refine ⟨rfl, rfl, rfl, by norm_num⟩

/-- C4 (amended): with each mode-guarded block of a pass executing
atomically -- i.e. with no interleaving between the found-flag test and
the found-flag assignment -- at most one agent over the whole simulation
ever becomes the first discoverer that writes the initial trail.  The
source does not enforce this atomicity: its only lock guards the
positions-dictionary appends, and under statement-level interleaving two
agents can both publish (this claim's counterexample). -/
theorem c4_publish_at_most_once (s : SimState 9) (h : Reachable (initState 9) s) :
    finderSum s ≤ 1 :=
  (reachable_inv s h).2.2.2.1

/-- C4 witness: at most one publisher holds at the initial state. -/
theorem c4_publish_at_most_once_witness : finderSum (initState 9) ≤ 1 :=
  c4_publish_at_most_once (initState 9) Relation.ReflTransGen.refl

theorem cos_three_nonpos : Real.cos 3 ≤ 0 := by
  apply Real.cos_nonpos_of_pi_div_two_le_of_le
  · linarith [Real.pi_lt_315]
  · linarith [Real.pi_gt_314]

theorem triangle_nonneg (j : ℕ) : 0 ≤ triangle j := by
  unfold triangle
  positivity

theorem evade_x_nonpos (j : ℕ) : (evadeAnt j).xPosition ≤ 0 := by
  show triangle j * Real.cos 3 ≤ 0
  nlinarith [triangle_nonneg j, cos_three_nonpos]

theorem far_from_ice (x y : ℝ) (hx : x ≤ 0) :
    ¬ hypot (x - 20) (y - -30) ≤ 11 := by
  rw [hypot, not_le]
  have hsq : (11 : ℝ) ^ 2 < (x - 20) ^ 2 + (y - -30) ^ 2 := by
    nlinarith [sq_nonneg (y - -30), sq_nonneg x]
  calc (11 : ℝ) = Real.sqrt (11 ^ 2) := by
        rw [Real.sqrt_sq (by norm_num : (0:ℝ) ≤ 11)]
    _ < Real.sqrt ((x - 20) ^ 2 + (y - -30) ^ 2) := Real.sqrt_lt_sqrt (by positivity) hsq

theorem evade_far (j : ℕ) :
    ¬ hypot ((evadeAnt (j + 1)).xPosition - Shared.init.ice.xPosition)
        ((evadeAnt (j + 1)).yPosition - Shared.init.ice.yPosition) ≤
      (Shared.init.ice.radius : ℝ) + 10 := by
  have h20 : Shared.init.ice.xPosition = 20 := rfl
  have h30 : Shared.init.ice.yPosition = -30 := rfl
  have hr : (Shared.init.ice.radius : ℝ) + 10 = 11 := by
    norm_num [Shared.init, Ice.init]
  rw [h20, h30, hr]
  exact far_from_ice _ _ (evade_x_nonpos (j + 1))

theorem evade_move (j : ℕ) : (evadeAnt j).move 0 = evadeAnt (j + 1) := by
  rw [Ant.move_eq]
  rw [if_neg (show ¬ ((evadeAnt j).direction + 0 > 360) by norm_num [evadeAnt])]
  rw [show (evadeAnt j).direction + 0 = 3 by norm_num [evadeAnt]]
  have hX : (evadeAnt j).xPosition + ((evadeAnt j).distanceTravelled : ℝ) * Real.cos 3 =
      triangle (j + 1) * Real.cos 3 := by
    show triangle j * Real.cos 3 + ((j + 1 : ℕ) : ℝ) * Real.cos 3 = triangle (j + 1) * Real.cos 3
    rw [← add_mul]
    congr 1
    unfold triangle
    push_cast
    ring
  have hY : (evadeAnt j).yPosition + ((evadeAnt j).distanceTravelled : ℝ) * Real.sin 3 =
      triangle (j + 1) * Real.sin 3 := by
    show triangle j * Real.sin 3 + ((j + 1 : ℕ) : ℝ) * Real.sin 3 = triangle (j + 1) * Real.sin 3
    rw [← add_mul]
    congr 1
    unfold triangle
    push_cast
    ring
  rw [hX, hY]
  have hP : (evadeAnt j).pathHistory ++
      [(⟨triangle (j + 1) * Real.cos 3, triangle (j + 1) * Real.sin 3⟩ : MicroDot)] =
      (List.range (j + 1 + 1)).map evadeDot := by
    show (List.range (j + 1)).map evadeDot ++ [evadeDot (j + 1)] =
      (List.range (j + 1 + 1)).map evadeDot
    conv_rhs => rw [List.range_succ]
    simp
  have hL : (evadeAnt j).positionsLog ++
      [(triangle (j + 1) * Real.cos 3, triangle (j + 1) * Real.sin 3)] =
      (0, 0) :: (List.range (j + 1 + 1)).map
        (fun i => (triangle i * Real.cos 3, triangle i * Real.sin 3)) := by
    show ((0, 0) :: (List.range (j + 1)).map
        (fun i => (triangle i * Real.cos 3, triangle i * Real.sin 3))) ++
        [(triangle (j + 1) * Real.cos 3, triangle (j + 1) * Real.sin 3)] =
      (0, 0) :: (List.range (j + 1 + 1)).map
        (fun i => (triangle i * Real.cos 3, triangle i * Real.sin 3))
    conv_rhs => rw [List.range_succ]
    simp
  rw [hP, hL]
  rfl

theorem evade_hunting (j : ℕ) :
    huntingBlock 0 Shared.init (evadeAnt j) [] =
      ⟨Shared.init, evadeAnt (j + 1), [], .ok⟩ := by
  rw [huntingBlock, if_pos (show (evadeAnt j).huntingForIceOffPathMode = 1 from rfl)]
  rw [evade_move j]
  rw [if_neg (evade_far j)]
  rfl

theorem evade_inner (j : ℕ) :
    innerPass 0 Shared.init (evadeAnt j) [] = ⟨Shared.init, evadeAnt (j + 1), [], .ok⟩ := by
  rw [innerPass, evade_hunting j]
  rfl

theorem evadeState_ants_zero (j : ℕ) : (evadeState j).ants 0 = evadeAnt j := by
  show Function.update (initState 9).ants 0 (evadeAnt j) 0 = evadeAnt j
  rw [Function.update_same]

theorem evadeState_locals_zero (j : ℕ) : (evadeState j).locals 0 = [] := by
  show Function.update (initState 9).locals 0 ([] : List MicroDot) 0 = ([] : List MicroDot)
  rw [Function.update_same]

theorem evadeState_started_zero (j : ℕ) : (evadeState j).started 0 = true := by
  show Function.update (initState 9).started 0 true 0 = true
  rw [Function.update_same]

theorem applyStart_started_zero : (applyStart (initState 9) 0).started 0 = true := by
  show Function.update (initState 9).started 0 true 0 = true
  rw [Function.update_same]

theorem evade_pass_state (j : ℕ) :
    applyPass (evadeState j) 0 0 = evadeState (j + 1) := by
  have e : innerPass 0 (evadeState j).sh ((evadeState j).ants 0) ((evadeState j).locals 0) =
      ⟨Shared.init, evadeAnt (j + 1), [], .ok⟩ := by
    rw [show (evadeState j).sh = Shared.init from rfl,
      evadeState_ants_zero j, evadeState_locals_zero j]
    exact evade_inner j
  simp only [applyPass]
  rw [e]
  dsimp only
  apply SimState.ext
  · rfl
  · rw [show (evadeState j).ants = Function.update (initState 9).ants 0 (evadeAnt j) from rfl,
      Function.update_idem]
    rfl
  · rw [show (evadeState j).locals =
        Function.update (initState 9).locals 0 ([] : List MicroDot) from rfl,
      Function.update_idem]
    rfl
  · rfl
  · rfl

theorem evade_outer_ant : outerBody 3 0 ((initState 9).ants 0) = evadeAnt 0 := by
  rw [show (initState 9).ants 0 = mkAnt 0 0 1 from rfl, outerBody, Ant.move_eq]
  apply Ant.ext <;> norm_num [mkAnt, evadeAnt, evadeDot, triangle]
  case pathHistory =>
    show [({ xPosition := (0 : ℝ), yPosition := (0 : ℝ) } : MicroDot)] =
      List.map evadeDot (List.range 1)
    rw [show List.range 1 = [0] from rfl]
    simp [evadeDot, triangle]
  case positionsLog =>
    rw [show List.range 1 = [0] from rfl]
    simp [triangle]

theorem evade_zero : applyOuter (applyStart (initState 9) 0) 0 3 0 = evadeState 0 := by
  apply SimState.ext
  · rfl
  · show Function.update (initState 9).ants 0 (outerBody 3 0 ((initState 9).ants 0)) =
      Function.update (initState 9).ants 0 (evadeAnt 0)
    rw [evade_outer_ant]
  · rfl
  · rfl
  · rfl

theorem evade_reach : ∀ j : ℕ, j ≤ 499 → Reachable (initState 9) (evadeState j)
  | 0, _ => by
    have h1 : SimStep (initState 9) (applyStart (initState 9) 0) :=
      SimStep.start (initState 9) 0 rfl
    have h2 : SimStep (applyStart (initState 9) 0) (evadeState 0) := by
      have h := SimStep.outer (applyStart (initState 9) 0) 0 3 0 (by norm_num)
        (Or.inr (Or.inl rfl)) applyStart_started_zero rfl rfl
      rwa [evade_zero] at h
    exact Relation.ReflTransGen.tail (Relation.ReflTransGen.single h1) h2
  | k + 1, hj => by
    have hstep : SimStep (evadeState k) (evadeState (k + 1)) := by
      have h := SimStep.pass (evadeState k) 0 0 (Or.inr (Or.inl rfl))
        (evadeState_started_zero k) rfl
        (by rw [evadeState_ants_zero]
            show k + 1 < 500
            omega)
      rwa [evade_pass_state] at h
    exact Relation.ReflTransGen.tail (evade_reach k (by omega)) hstep

theorem evade_getLast (j : ℕ) (h : (evadeAnt j).pathHistory ≠ []) :
    (evadeAnt j).pathHistory.getLast h = evadeDot j := by
  show ((List.range (j + 1)).map evadeDot).getLast h = evadeDot j
  simp only [List.range_succ, List.map_append]
  exact List.getLast_append_singleton _

theorem innerPass_noop (c : ℝ) (sh : Shared) (a : Ant) (lh : List MicroDot)
    (h1 : a.huntingForIceOffPathMode = 0) (h2 : a.discoveredIceMode = 0)
    (h3 : a.onGoalPathToIceMode = 0) (h4 : a.obtainingIceMode = 0)
    (h5 : a.goingHomeWithIceMode = 0) (h6 : a.goingHomeWithoutIceMode = 0) :
    innerPass c sh a lh = ⟨sh, a, lh, .ok⟩ := by
  have hb1 : huntingBlock c sh a lh = ⟨sh, a, lh, .ok⟩ := by
    rw [huntingBlock, if_neg (show ¬ a.huntingForIceOffPathMode = 1 by omega)]
  have hb2 : discoveredBlock sh a lh = ⟨sh, a, lh, .ok⟩ := by
    rw [discoveredBlock, if_neg (show ¬ a.discoveredIceMode = 1 by omega)]
  have hb3 : onGoalPathBlock sh a lh = ⟨sh, a, lh, .ok⟩ := by
    rw [onGoalPathBlock, if_neg (show ¬ a.onGoalPathToIceMode = 1 by omega)]
  have hb4 : obtainingBlock sh a lh = ⟨sh, a, lh, .ok⟩ := by
    rw [obtainingBlock, if_neg (show ¬ a.obtainingIceMode = 1 by omega)]
  have hb5 : goingHomeWithIceBlock sh a lh = ⟨sh, a, lh, .ok⟩ := by
    rw [goingHomeWithIceBlock, if_neg (show ¬ a.goingHomeWithIceMode = 1 by omega)]
  have hb6 : goingHomeWithoutIceBlock sh a lh = ⟨sh, a, lh, .ok⟩ := by
    rw [goingHomeWithoutIceBlock, if_neg (show ¬ a.goingHomeWithoutIceMode = 1 by omega)]
  rw [innerPass, hb1,
    show Res.andThen ⟨sh, a, lh, .ok⟩ discoveredBlock = discoveredBlock sh a lh from rfl,
    hb2,
    show Res.andThen ⟨sh, a, lh, .ok⟩ onGoalPathBlock = onGoalPathBlock sh a lh from rfl,
    hb3,
    show Res.andThen ⟨sh, a, lh, .ok⟩ obtainingBlock = obtainingBlock sh a lh from rfl,
    hb4,
    show Res.andThen ⟨sh, a, lh, .ok⟩ goingHomeWithIceBlock =
      goingHomeWithIceBlock sh a lh from rfl,
    hb5,
    show Res.andThen ⟨sh, a, lh, .ok⟩ goingHomeWithoutIceBlock =
      goingHomeWithoutIceBlock sh a lh from rfl,
    hb6]

theorem applyPass_noop {n : ℕ} (s : SimState n) (i : Fin n) (c : ℝ)
    (h1 : (s.ants i).huntingForIceOffPathMode = 0)
    (h2 : (s.ants i).discoveredIceMode = 0)
    (h3 : (s.ants i).onGoalPathToIceMode = 0)
    (h4 : (s.ants i).obtainingIceMode = 0)
    (h5 : (s.ants i).goingHomeWithIceMode = 0)
    (h6 : (s.ants i).goingHomeWithoutIceMode = 0) :
    applyPass s i c = s := by
  simp only [applyPass]
  rw [innerPass_noop c s.sh (s.ants i) (s.locals i) h1 h2 h3 h4 h5 h6]
  dsimp only
  apply SimState.ext
  · rfl
  · exact Function.update_eq_self i s.ants
  · exact Function.update_eq_self i s.locals
  · rfl
  · rfl

theorem exSpinState_ants_zero : exSpinState.ants 0 = exAntHome := by
  show Function.update (initState 9).ants 0 exAntHome 0 = exAntHome
  rw [Function.update_same]

/-- C5 counterexample.  First, a reachable interleaved execution in which
thread 0 draws direction 3 and turn choice 0 at every random draw: its
growing steps (each of length distanceTravelled) walk it along the ray
through (cos 3, sin 3), whose x-coordinate stays nonpositive, so it never
comes within Ice.radius + 10 of the ice at (20, -30) and the goal-dot
list stays empty; after 500 hunting passes distanceTravelled reaches the
cap and the while-else goingHome retrace runs, ending with isHomeMode = 1
but a path history of 1001 micro dots -- the 500 outbound dots plus the
501 retrace dots -- exceeding the step budget 500 of the inner loop.
Second, the loop itself need not terminate: on a state whose ant was
flagged home inside the loop with all six mode flags cleared (the shape
the returning-with-ice block leaves a carrier in) and distanceTravelled
still under 500, a pass changes nothing, so the inner loop -- whose guard
tests only distanceTravelled -- repeats this stutter step forever. -/
theorem c5_counterexample :
    Reachable (initState 9) (applyWhileElse (evadeState 499) 0) ∧
    ((applyWhileElse (evadeState 499) 0).ants 0).isHomeMode = 1 ∧
    ((applyWhileElse (evadeState 499) 0).ants 0).pathHistory.length = 1001 ∧
    ¬ ((applyWhileElse (evadeState 499) 0).ants 0).pathHistory.length ≤ 500 ∧
    SimStep exSpinState exSpinState ∧
    (exSpinState.ants 0).isHomeMode = 1 ∧
    (exSpinState.ants 0).distanceTravelled < 500 := by
  have hne : (evadeAnt 499).pathHistory ≠ [] := by simp [evadeAnt]
  have hx : (evadeAnt 499).xPosition = ((evadeAnt 499).pathHistory.getLast hne).xPosition := by
    rw [evade_getLast]
    rfl
  have hy : (evadeAnt 499).yPosition = ((evadeAnt 499).pathHistory.getLast hne).yPosition := by
    rw [evade_getLast]
    rfl
  obtain ⟨-, k2, -, -, -, k6, -⟩ :=
    goingHome_retrace (evadeAnt 499) Shared.init.goalMicroDotsToHome rfl rfl hne hx hy
  have hants : (applyWhileElse (evadeState 499) 0).ants 0 =
      ((evadeAnt 499).goingHome Shared.init.goalMicroDotsToHome).1 := by
    set_option maxRecDepth 4096 in
    show Function.update (evadeState 499).ants 0
        (((evadeState 499).ants 0).goingHome (evadeState 499).sh.goalMicroDotsToHome).1 0 =
      ((evadeAnt 499).goingHome Shared.init.goalMicroDotsToHome).1
    rw [Function.update_same, evadeState_ants_zero,
      show (evadeState 499).sh = Shared.init from rfl]
  have hfin : Reachable (initState 9) (applyWhileElse (evadeState 499) 0) :=
    Relation.ReflTransGen.tail (evade_reach 499 (by norm_num))
      (SimStep.whileElse (evadeState 499) 0
        (evadeState_started_zero 499) rfl
        (by rw [evadeState_ants_zero]
            show ¬ (499 + 1 < 500)
            omega))
  have hlen : ((evadeAnt 499).goingHome Shared.init.goalMicroDotsToHome).1.pathHistory.length =
      1001 := by
    rw [k6]
    have hL : (evadeAnt 499).pathHistory.length = 500 := by simp [evadeAnt]
    simp only [List.length_append, List.length_drop, List.length_reverse, List.length_cons,
      List.length_nil, hL]
  have hspin : SimStep exSpinState exSpinState := by
    have h := SimStep.pass exSpinState 0 0 (Or.inr (Or.inl rfl))
      (by show Function.update (initState 9).started 0 true 0 = true
          rw [Function.update_same]) rfl
      (by rw [exSpinState_ants_zero]
          show (42 : ℕ) < 500
          omega)
    rwa [applyPass_noop exSpinState 0 0
      (by rw [exSpinState_ants_zero]; rfl) (by rw [exSpinState_ants_zero]; rfl)
      (by rw [exSpinState_ants_zero]; rfl) (by rw [exSpinState_ants_zero]; rfl)
      (by rw [exSpinState_ants_zero]; rfl) (by rw [exSpinState_ants_zero]; rfl)] at h
  refine ⟨hfin, ?_, ?_, ?_, hspin, ?_, ?_⟩
  · rw [hants]
    exact k2
  · rw [hants]
    exact hlen
  · rw [hants, hlen]
    omega
  · rw [exSpinState_ants_zero]
    rfl
  · rw [exSpinState_ants_zero]
    show (42 : ℕ) < 500
    omega

end


